import Mathlib

/-!
Verification of the OVANI bundle transfer engine
(`src/ovani/download_bundles.py`) and the archive extractor
(`src/ovani/extract_bundle.py`) against their natural-language
specification.

The Python code is shallowly embedded: filesystem, failure log, console
output, backoff sleeps and issued HTTP requests are threaded explicitly
through a state record; the HTTP transport is an environment parameter
giving the observable outcome of each GET attempt; `sys.exit` and
uncaught exceptions are values of a result type that distinguishes
`SystemExit` (a `BaseException`, not caught by `except Exception`) from
ordinary exceptions.
-/

set_option autoImplicit false

namespace DownloadBundles

/-- File content bytes are modelled as natural numbers. -/
abbrev Byte := Nat

/-- A filesystem path, as its list of components. -/
abbrev FsPath := List String

/-- `pathlib.Path.name`: the final path component. -/
def pathName : FsPath → String
  | [] => ""
  | [x] => x
  | _ :: xs => pathName xs

/-- `dest_path.with_suffix(dest_path.suffix + '.tmp')` (line 57): the final
component gains a `.tmp` suffix appended after its existing suffix. -/
def tempPath : FsPath → FsPath
  | [] => [".tmp"]
  | [x] => [x ++ ".tmp"]
  | x :: xs => x :: tempPath xs

/-- A regular file: its content and its modification time (a logical clock
value stamped when the content was written). -/
structure FileData where
  content : List Byte
  mtime : Nat
deriving Repr, DecidableEq

/-- Lookup in an association list of files; the most recent write shadows
older entries. -/
def findFile : List (FsPath × FileData) → FsPath → Option FileData
  | [], _ => none
  | e :: rest, p => if e.1 = p then some e.2 else findFile rest p

/-- The destination filesystem, as an association list from paths to files. -/
structure FS where
  files : List (FsPath × FileData)
deriving Repr, DecidableEq

def FS.lookup (fs : FS) (p : FsPath) : Option FileData := findFile fs.files p

/-- `Path.exists()`. -/
def FS.pathExists (fs : FS) (p : FsPath) : Bool := (fs.lookup p).isSome

/-- `open(p, 'wb')` followed by writing `d.content`: replaces any existing
file at `p`. -/
def FS.write (fs : FS) (p : FsPath) (d : FileData) : FS := ⟨(p, d) :: fs.files⟩

/-- `Path.unlink()`: removes the file at `p`. -/
def FS.unlink (fs : FS) (p : FsPath) : FS :=
  ⟨fs.files.filter (fun e => decide (e.1 ≠ p))⟩

/-- `Path.rename(dst)`: moves the file at `src` onto `dst`, preserving its
content and modification time. -/
def FS.rename (fs : FS) (src dst : FsPath) : FS :=
  match fs.lookup src with
  | none => fs
  | some d => (fs.unlink src).write dst d

/-- The observable outcome of one `session.get` attempt (lines 51-82): a 200
response whose body streams to completion, a 200 response whose body raises
after a proper part of the bytes was written, a non-200 status, or an
exception from the request itself (connection failure, timeout). -/
inductive AttemptResult where
  | ok (contentLength : Option Nat) (body : List Byte)
  | streamFail (contentLength : Option Nat) (written : List Byte) (err : String)
  | httpError (status : Nat)
  | connError (err : String)
deriving Repr, DecidableEq

def AttemptResult.isOk : AttemptResult → Bool
  | .ok _ _ => true
  | _ => false

/-- The environment: the transport gives the outcome of the GET for a url at
a given attempt index; `logWriteFails` says whether appending to the failure
log file raises (e.g. the log file is unwritable). -/
structure Env where
  transport : String → Nat → AttemptResult
  logWriteFails : Bool

/-- One entry of `failed_downloads.log` as written by `log_failed_download`
(lines 15-21): timestamp, filename, url and error text. -/
structure LogEntry where
  timestamp : Nat
  url : String
  filename : String
  error : String
deriving Repr, DecidableEq

/-- The result of running a piece of Python code: a value, a `SystemExit`
(raised by `sys.exit`, a `BaseException` that `except Exception` does not
catch), or an ordinary uncaught exception. -/
inductive PyResult (α : Type) where
  | ok (val : α)
  | sysExit (code : Nat)
  | exc (msg : String)
deriving Repr, DecidableEq

/-- The threaded program state: destination filesystem, failure log,
console lines, the backoff sleeps performed, the urls of the HTTP requests
issued, and a logical clock. -/
structure St where
  fs : FS
  log : List LogEntry
  console : List String
  sleeps : List Nat
  requests : List String
  clock : Nat
deriving Repr, DecidableEq

/-- The backoff base: the source sleeps `1 * attempt` seconds (line 48). -/
def backoffBase : Nat := 1

/-- Lines 70-72: delete any pre-existing file at the destination, then
rename the temporary file onto the destination path. -/
def commitFS (fs1 : FS) (temp dest : FsPath) : FS :=
  (if fs1.pathExists dest then fs1.unlink dest else fs1).rename temp dest

/-- `log_failed_download` (lines 15-21): append one timestamped entry to the
failure log. -/
def log_failed_download (url filename error : String) (st : St) : St :=
  { st with
    log := st.log ++ [⟨st.clock, url, filename, error⟩],
    clock := st.clock + 1 }

/-- The prelude of one loop iteration (lines 46-48 and the GET of line 51):
on a retry print the retry line and sleep `backoffBase * attempt`, then
record the issued request. -/
def attemptPrelude (url : String) (dest : FsPath) (a : Nat) (st : St) : St :=
  let st0 : St :=
    if 0 < a then
      { st with
        console := st.console ++
          ["Retry " ++ toString a ++ " for " ++ pathName dest],
        sleeps := st.sleeps ++ [backoffBase * a] }
    else st
  { st0 with requests := st0.requests ++ [url] }

/-- The retry loop body of `download_file` (lines 45-82), iterating over the
attempt indices `range(max_retries + 1)`.  Returns whether some attempt
succeeded, the final `last_error`, and the final state.  On a completed 200
stream the bytes are written to the temporary path and the temporary file is
renamed onto the destination (lines 63-73); on a stream exception the
temporary file is deleted and the error recorded (lines 74-78, 81-82); a
non-200 status or request exception records the error (lines 79-82). -/
def runAttempts (env : Env) (url : String) (dest : FsPath) :
    List Nat → Option String → St → Bool × Option String × St
  | [], le, st => (false, le, st)
  | a :: rest, le, st =>
    let st1 : St := attemptPrelude url dest a st
    match env.transport url a with
    | .ok _cl body =>
      let temp := tempPath dest
      let fs1 := st1.fs.write temp ⟨body, st1.clock⟩
      if fs1.pathExists temp then
        (true, le, { st1 with fs := commitFS fs1 temp dest, clock := st1.clock + 1 })
      else
        runAttempts env url dest rest le { st1 with fs := fs1, clock := st1.clock + 1 }
    | .streamFail _cl written err =>
      let temp := tempPath dest
      let fs1 := (st1.fs.write temp ⟨written, st1.clock⟩).unlink temp
      runAttempts env url dest rest (some err)
        { st1 with fs := fs1, clock := st1.clock + 1 }
    | .httpError status =>
      runAttempts env url dest rest (some ("HTTP " ++ toString status)) st1
    | .connError err =>
      runAttempts env url dest rest (some err) st1

/-- The console line printed at line 87. -/
def failLine (dest : FsPath) (max_retries : Nat) (err : String) : String :=
  "Failed to download " ++ pathName dest ++ " after " ++
    toString (max_retries + 1) ++ " attempts: " ++ err

/-- `download_file` (lines 23-90): run the retry loop; on success return
`True`; once all attempts are exhausted, append to the failure log when
`log_errors` holds and an error was recorded (an unwritable log file makes
this append raise, and nothing after it runs), print the failure line, and
call `sys.exit(1)`.  The trailing `return False` (line 90) is unreachable. -/
def download_file (env : Env) (url : String) (dest : FsPath)
    (log_errors : Bool) (max_retries : Nat) (st : St) : PyResult Bool × St :=
  match runAttempts env url dest (List.range (max_retries + 1)) none st with
  | (true, _, st1) => (.ok true, st1)
  | (false, le, st1) =>
    let errText := match le with | some e => e | none => "None"
    if log_errors && le.isSome then
      if env.logWriteFails then
        (.exc "OSError: failure log is not writable", st1)
      else
        let st2 := log_failed_download url (pathName dest) errText st1
        (.sysExit 1,
          { st2 with console := st2.console ++ [failLine dest max_retries errText] })
    else
      (.sysExit 1,
        { st1 with console := st1.console ++ [failLine dest max_retries errText] })

/-- The per-task outcome of the batch loop, read off the branch taken at
lines 156-166: skip-if-exists, success, or the (unreachable) failed branch. -/
inductive TransferOutcome where
  | skipped
  | succeeded
  | failed
deriving Repr, DecidableEq

/-- The destination path `dest_folder / filename` (line 155). -/
def destPath (folder filename : String) : FsPath := [folder, filename]

/-- The console line printed at line 157. -/
def skipLine (i total : Nat) (filename : String) : String :=
  "[" ++ toString i ++ "/" ++ toString total ++ "] Skipping " ++ filename ++
    " - file already exists"

/-- The console line printed at line 161. -/
def startLine (i total : Nat) (filename : String) : String :=
  "[" ++ toString i ++ "/" ++ toString total ++ "] Starting download: " ++ filename

/-- The summary block printed at lines 171-180. -/
def summaryLines (successful total : Nat) (failedDownloads : List (String × String)) :
    List String :=
  ["Download Complete!",
   "Successfully downloaded: " ++ toString successful ++ "/" ++ toString total,
   "Failed downloads: " ++ toString failedDownloads.length] ++
  (if failedDownloads.isEmpty then []
   else ["Failed downloads have been logged to failed_downloads.log"])

/-- The task loop of the effective `download_all_files` (lines 154-166):
skip a task whose destination exists (counting it successful), otherwise run
`download_file` with the default `log_errors = True`, `max_retries = 2`; a
`SystemExit` or an exception raised by `download_file` aborts the loop.
Carries the loop locals `successful`, `failed_downloads` and the per-task
outcome trace. -/
def runTasks (env : Env) (folder : String) (total : Nat) :
    List (String × String) → Nat → Nat → List (String × String) →
    List TransferOutcome → St →
    PyResult (Nat × List (String × String) × List TransferOutcome) × St
  | [], _i, successful, failedDownloads, outcomes, st =>
    (.ok (successful, failedDownloads, outcomes), st)
  | (url, filename) :: rest, i, successful, failedDownloads, outcomes, st =>
    let dest := destPath folder filename
    if st.fs.pathExists dest then
      runTasks env folder total rest (i + 1) (successful + 1) failedDownloads
        (outcomes ++ [.skipped])
        { st with console := st.console ++ [skipLine i total filename] }
    else
      let st1 : St := { st with console := st.console ++ [startLine i total filename] }
      match download_file env url dest true 2 st1 with
      | (.ok result, st2) =>
        if result then
          runTasks env folder total rest (i + 1) (successful + 1) failedDownloads
            (outcomes ++ [.succeeded]) st2
        else
          runTasks env folder total rest (i + 1) successful
            (failedDownloads ++ [(url, filename)]) (outcomes ++ [.failed]) st2
      | (.sysExit c, st2) => (.sysExit c, st2)
      | (.exc m, st2) => (.exc m, st2)

/-- The effective `download_all_files` (lines 145-185) — the second
definition of that name, which shadows the earlier semaphore-based variant
(lines 92-116).  Runs the task loop sequentially; on normal completion it
prints the summary and returns `successful == total_files`; an ordinary
exception is caught by the `except Exception` handler (lines 183-185) which
prints a generic message and returns `False`; a `SystemExit` propagates. -/
def download_all_files (env : Env) (downloads : List (String × String))
    (folder : String) (st : St) : PyResult Bool × St :=
  match runTasks env folder downloads.length downloads 1 0 [] [] st with
  | (.ok (successful, failedDownloads, _outcomes), st1) =>
    (.ok (successful == downloads.length),
      { st1 with console :=
          st1.console ++ summaryLines successful downloads.length failedDownloads })
  | (.sysExit c, st1) => (.sysExit c, st1)
  | (.exc m, st1) =>
    (.ok false,
      { st1 with console :=
          st1.console ++ ["An error occurred during downloads: " ++ m] })

/-- The process exit code: `main` (lines 209-213) ignores the boolean
returned by `download_all_files`, so the process exits 0 unless a
`SystemExit` (from `sys.exit(1)` in `download_file`) escapes. -/
def processExitCode (env : Env) (downloads : List (String × String))
    (folder : String) (st : St) : Nat :=
  match (download_all_files env downloads folder st).1 with
  | .sysExit c => c
  | _ => 0

/-- The empty initial state: empty filesystem, log, console and traces. -/
def st0 : St := ⟨⟨[]⟩, [], [], [], [], 0⟩

/-- A state whose filesystem already holds a destination file `d/a.zip`. -/
def stPre : St := ⟨⟨[(["d", "a.zip"], ⟨[9], 0⟩)]⟩, [], [], [], [], 1⟩

/-- A transport on which every attempt raises a connection error, with a
writable failure log. -/
def envAlwaysFail : Env := ⟨fun _ _ => .connError "connection refused", false⟩

/-- A transport on which every attempt returns a complete three-byte 200
stream with a matching `content-length`. -/
def envAlwaysOk : Env := ⟨fun _ _ => .ok (some 3) [7, 8, 9], false⟩

/-- A transport on which every attempt raises a connection error and the
failure log file is unwritable, so appending to it raises. -/
def envBadLog : Env := ⟨fun _ _ => .connError "connection refused", true⟩

/-- A transport on which url `uA` succeeds immediately and every other url
always fails. -/
def envMixed : Env :=
  ⟨fun u _ => if u = "uA" then .ok (some 2) [7, 7] else .connError "connection refused",
   false⟩

end DownloadBundles

namespace ExtractBundle

/-- A Python value returned by `extract_wavs`: either a bare boolean (the
`return False` at line 127) or a `(bool, str)` pair (every other return
path). -/
inductive PyValue where
  | bool (b : Bool)
  | pair (b : Bool) (s : String)
deriving Repr, DecidableEq

/-- The environment of the extractor for paths given as strings: whether a
path exists on disk, whether the ZIP at it passes `is_zip_valid`
(lines 52-61), and the `(success, error_msg)` outcome of
`_process_zip_file` on it (lines 149-159). -/
structure ZipWorld where
  pathExists : String → Bool
  zipValid : String → Bool
  processResult : String → Bool × String

/-- `extract_wavs` (lines 117-147) on a path argument (the
`str`/`os.PathLike` branch): a missing file and a processed archive return
`(bool, str)` pairs, but a file that exists and fails `is_zip_valid`
returns the bare boolean `False` (line 127). -/
def extract_wavs (w : ZipWorld) (zip_file_path : String) : PyValue :=
  if w.pathExists zip_file_path = false then
    .pair false ("File not found: " ++ zip_file_path)
  else if w.zipValid zip_file_path = false then
    .bool false
  else
    .pair (w.processResult zip_file_path).1 (w.processResult zip_file_path).2

/-- The tuple unpacking `success, error_msg = extract_wavs(...)` in `main`
(line 201): unpacking a bare bool raises a `TypeError`. -/
def unpack2 : PyValue → DownloadBundles.PyResult (Bool × String)
  | .pair b s => .ok (b, s)
  | .bool _ => .exc "TypeError: cannot unpack non-iterable bool object"

/-- The per-archive loop of `main` (lines 199-208): unpack the result of
`extract_wavs`; count successes and record failed files; an exception
propagates out of `main` (there is no handler around the loop). -/
def mainLoop (w : ZipWorld) :
    List String → Nat → List (String × String) →
    DownloadBundles.PyResult (Nat × List (String × String))
  | [], successCount, failedFiles => .ok (successCount, failedFiles)
  | p :: rest, successCount, failedFiles =>
    match unpack2 (extract_wavs w p) with
    | .ok (true, _) => mainLoop w rest (successCount + 1) failedFiles
    | .ok (false, msg) => mainLoop w rest successCount (failedFiles ++ [(p, msg)])
    | .sysExit c => .sysExit c
    | .exc m => .exc m

/-- A concrete extractor world: every path exists, `bad.zip` fails the ZIP
validity check, and processing any valid archive succeeds. -/
def zw : ZipWorld := ⟨fun _ => true, fun q => q != "bad.zip", fun _ => (true, "Success")⟩

end ExtractBundle

namespace DownloadBundles

@[simp] theorem FS.lookup_write_self (fs : FS) (p : FsPath) (d : FileData) :
    (fs.write p d).lookup p = some d := by
  simp [FS.write, FS.lookup, findFile]

theorem FS.lookup_write_ne (fs : FS) (p q : FsPath) (d : FileData) (h : q ≠ p) :
    (fs.write p d).lookup q = fs.lookup q := by
  have hne : ¬ p = q := fun h' => h h'.symm
  simp [FS.write, FS.lookup, findFile, hne]

theorem findFile_filter_self (l : List (FsPath × FileData)) (p : FsPath) :
    findFile (l.filter (fun e => decide (e.1 ≠ p))) p = none := by
  induction l with
  | nil => rfl
  | cons e rest ih =>
    by_cases he : e.1 = p
    · rw [List.filter_cons_of_neg (by simp [he])]
      exact ih
    · rw [List.filter_cons_of_pos (by simp [he])]
      simp only [findFile, he, if_false]
      simpa using ih

theorem findFile_filter_ne (l : List (FsPath × FileData)) (p q : FsPath) (h : q ≠ p) :
    findFile (l.filter (fun e => decide (e.1 ≠ p))) q = findFile l q := by
  induction l with
  | nil => rfl
  | cons e rest ih =>
    by_cases he : e.1 = p
    · rw [List.filter_cons_of_neg (by simp [he]), ih]
      have hne : ¬ e.1 = q := by rw [he]; exact fun hq => h hq.symm
      simp [findFile, hne]
    · rw [List.filter_cons_of_pos (by simp [he])]
      by_cases hq : e.1 = q
      · simp [findFile, hq]
      · simp only [findFile, hq, if_false]
        simpa using ih

@[simp] theorem FS.lookup_unlink_self (fs : FS) (p : FsPath) :
    (fs.unlink p).lookup p = none :=
  findFile_filter_self fs.files p

theorem FS.lookup_unlink_ne (fs : FS) (p q : FsPath) (h : q ≠ p) :
    (fs.unlink p).lookup q = fs.lookup q :=
  findFile_filter_ne fs.files p q h

theorem String.append_tmp_ne (s : String) : s ++ ".tmp" ≠ s := by
  intro h
  have hl : (s ++ ".tmp").length = s.length := congrArg String.length h
  rw [String.length_append] at hl
  have h4 : (".tmp" : String).length = 4 := rfl
  omega

theorem tempPath_ne (p : FsPath) : tempPath p ≠ p := by
  induction p with
  | nil => simp [tempPath]
  | cons x xs ih =>
    cases xs with
    | nil => simpa [tempPath] using String.append_tmp_ne x
    | cons y ys =>
      simp only [tempPath, ne_eq, List.cons.injEq, not_and]
      intro _
      exact ih

theorem destPath_inj (folder f g : String) :
    destPath folder f = destPath folder g ↔ f = g := by
  simp [destPath]

theorem tempPath_destPath (folder f : String) :
    tempPath (destPath folder f) = destPath folder (f ++ ".tmp") := rfl

/-- The atomic-commit step (lines 63-72): after the body is written to the
temporary path, the commit leaves the destination holding exactly the
written data, no temporary file remains, and no other path is affected. -/
theorem commitFS_spec (fs : FS) (dest : FsPath) (d : FileData) :
    (commitFS (fs.write (tempPath dest) d) (tempPath dest) dest).lookup dest = some d ∧
    (commitFS (fs.write (tempPath dest) d) (tempPath dest) dest).lookup (tempPath dest)
      = none ∧
    ∀ p, p ≠ dest → p ≠ tempPath dest →
      (commitFS (fs.write (tempPath dest) d) (tempPath dest) dest).lookup p
        = fs.lookup p := by
  have htd : tempPath dest ≠ dest := tempPath_ne dest
  set temp := tempPath dest with htemp
  set fs1 := fs.write temp d with hfs1
  have hlt : fs1.lookup temp = some d := FS.lookup_write_self fs temp d
  set fs2 := if fs1.pathExists dest then fs1.unlink dest else fs1 with hfs2
  have h2t : fs2.lookup temp = some d := by
    rw [hfs2]
    split
    · rw [FS.lookup_unlink_ne _ _ _ htd]
      exact hlt
    · exact hlt
  have h2frame : ∀ p, p ≠ dest → fs2.lookup p = fs1.lookup p := by
    intro p hp
    rw [hfs2]
    split
    · exact FS.lookup_unlink_ne _ _ _ hp
    · rfl
  have hren : commitFS fs1 temp dest = (fs2.unlink temp).write dest d := by
    show (if fs1.pathExists dest then fs1.unlink dest else fs1).rename temp dest
        = (fs2.unlink temp).write dest d
    rw [← hfs2]
    unfold FS.rename
    rw [h2t]
  refine ⟨?_, ?_, ?_⟩
  · rw [hren]
    exact FS.lookup_write_self _ _ _
  · rw [hren, FS.lookup_write_ne _ _ _ _ htd]
    exact FS.lookup_unlink_self _ _
  · intro p hpd hpt
    rw [hren, FS.lookup_write_ne _ _ _ _ hpd, FS.lookup_unlink_ne _ _ _ hpt, h2frame p hpd,
      hfs1, FS.lookup_write_ne _ _ _ _ hpt]

@[simp] theorem FS.pathExists_write_self (fs : FS) (p : FsPath) (d : FileData) :
    (fs.write p d).pathExists p = true := by
  simp [FS.pathExists]

@[simp] theorem attemptPrelude_fs (url : String) (dest : FsPath) (a : Nat) (st : St) :
    (attemptPrelude url dest a st).fs = st.fs := by
  unfold attemptPrelude
  split <;> rfl

@[simp] theorem attemptPrelude_log (url : String) (dest : FsPath) (a : Nat) (st : St) :
    (attemptPrelude url dest a st).log = st.log := by
  unfold attemptPrelude
  split <;> rfl

@[simp] theorem attemptPrelude_clock (url : String) (dest : FsPath) (a : Nat) (st : St) :
    (attemptPrelude url dest a st).clock = st.clock := by
  unfold attemptPrelude
  split <;> rfl

@[simp] theorem attemptPrelude_requests (url : String) (dest : FsPath) (a : Nat) (st : St) :
    (attemptPrelude url dest a st).requests = st.requests ++ [url] := by
  unfold attemptPrelude
  split <;> rfl

@[simp] theorem attemptPrelude_sleeps (url : String) (dest : FsPath) (a : Nat) (st : St) :
    (attemptPrelude url dest a st).sleeps
      = st.sleeps ++ (if 0 < a then [backoffBase * a] else []) := by
  unfold attemptPrelude
  split <;> simp

/-- The retry loop never touches the failure log. -/
theorem runAttempts_log (env : Env) (url : String) (dest : FsPath) :
    ∀ (as : List Nat) (le : Option String) (st : St),
      (runAttempts env url dest as le st).2.2.log = st.log := by
  intro as
  induction as with
  | nil => intro le st; rfl
  | cons a rest ih =>
    intro le st
    cases htr : env.transport url a with
    | ok cl body =>
      simp only [runAttempts, htr]
      rw [attemptPrelude_fs, FS.pathExists_write_self]
      simp [ih, attemptPrelude_log]
    | streamFail cl written err =>
      simp only [runAttempts, htr]
      simp [ih, attemptPrelude_log]
    | httpError status =>
      simp only [runAttempts, htr]
      simp [ih, attemptPrelude_log]
    | connError err =>
      simp only [runAttempts, htr]
      simp [ih, attemptPrelude_log]

/-- The retry loop never decreases the clock. -/
theorem runAttempts_clock (env : Env) (url : String) (dest : FsPath) :
    ∀ (as : List Nat) (le : Option String) (st : St),
      st.clock ≤ (runAttempts env url dest as le st).2.2.clock := by
  intro as
  induction as with
  | nil => intro le st; exact Nat.le_refl _
  | cons a rest ih =>
    intro le st
    cases htr : env.transport url a with
    | ok cl body =>
      simp only [runAttempts, htr]
      rw [attemptPrelude_fs, FS.pathExists_write_self]
      simp only [if_true]
      calc st.clock ≤ st.clock + 1 := Nat.le_succ _
        _ ≤ _ := by simp
    | streamFail cl written err =>
      simp only [runAttempts, htr]
      refine Nat.le_trans (Nat.le_succ st.clock) ?_
      have := ih (some err)
        { attemptPrelude url dest a st with
          fs := ((attemptPrelude url dest a st).fs.write (tempPath dest)
            ⟨written, (attemptPrelude url dest a st).clock⟩).unlink (tempPath dest),
          clock := (attemptPrelude url dest a st).clock + 1 }
      simpa using this
    | httpError status =>
      simp only [runAttempts, htr]
      exact Nat.le_trans (by simp) (ih _ _)
    | connError err =>
      simp only [runAttempts, htr]
      exact Nat.le_trans (by simp) (ih _ _)

/-- The retry loop touches no path other than the destination and its
temporary staging path. -/
theorem runAttempts_fs_frame (env : Env) (url : String) (dest : FsPath) :
    ∀ (as : List Nat) (le : Option String) (st : St) (p : FsPath),
      p ≠ dest → p ≠ tempPath dest →
      (runAttempts env url dest as le st).2.2.fs.lookup p = st.fs.lookup p := by
  intro as
  induction as with
  | nil => intro le st p _ _; rfl
  | cons a rest ih =>
    intro le st p hpd hpt
    cases htr : env.transport url a with
    | ok cl body =>
      simp only [runAttempts, htr]
      rw [attemptPrelude_fs, FS.pathExists_write_self]
      simp only [if_true]
      have := (commitFS_spec st.fs dest ⟨body, (attemptPrelude url dest a st).clock⟩).2.2
        p hpd hpt
      simpa using this
    | streamFail cl written err =>
      simp only [runAttempts, htr]
      rw [ih _ _ p hpd hpt]
      simp only [attemptPrelude_fs]
      rw [FS.lookup_unlink_ne _ _ _ hpt, FS.lookup_write_ne _ _ _ _ hpt]
    | httpError status =>
      simp only [runAttempts, htr]
      rw [ih _ _ p hpd hpt]
      simp [attemptPrelude_fs]
    | connError err =>
      simp only [runAttempts, htr]
      rw [ih _ _ p hpd hpt]
      simp [attemptPrelude_fs]

/-- Request and sleep traces of the retry loop: some number `k` of attempts
is consumed, each issuing one GET for `url`, and before each consumed
attempt of positive index `a` the loop sleeps exactly `backoffBase * a`. -/
theorem runAttempts_requests_sleeps (env : Env) (url : String) (dest : FsPath) :
    ∀ (as : List Nat) (le : Option String) (st : St),
      ∃ k, k ≤ as.length ∧
        (runAttempts env url dest as le st).2.2.requests
          = st.requests ++ List.replicate k url ∧
        (runAttempts env url dest as le st).2.2.sleeps
          = st.sleeps ++ ((as.take k).filterMap
              fun a => if 0 < a then some (backoffBase * a) else none) := by
  intro as
  induction as with
  | nil =>
    intro le st
    exact ⟨0, by simp [runAttempts]⟩
  | cons a rest ih =>
    intro le st
    cases htr : env.transport url a with
    | ok cl body =>
      refine ⟨1, by simp, ?_, ?_⟩
      · simp only [runAttempts, htr]
        rw [attemptPrelude_fs, FS.pathExists_write_self]
        simp [List.replicate]
      · simp only [runAttempts, htr]
        rw [attemptPrelude_fs, FS.pathExists_write_self]
        simp only [if_true]
        simp [attemptPrelude_sleeps, List.filterMap]
        split <;> simp
    | streamFail cl written err =>
      obtain ⟨k, hk, hreq, hsl⟩ := ih (some err)
        { attemptPrelude url dest a st with
          fs := ((attemptPrelude url dest a st).fs.write (tempPath dest)
            ⟨written, (attemptPrelude url dest a st).clock⟩).unlink (tempPath dest),
          clock := (attemptPrelude url dest a st).clock + 1 }
      refine ⟨k + 1, by simpa using Nat.succ_le_succ hk, ?_, ?_⟩
      · simp only [runAttempts, htr]
        rw [hreq]
        simp [List.replicate_succ]
      · simp only [runAttempts, htr]
        rw [hsl]
        simp only [attemptPrelude_sleeps, List.take, List.filterMap_cons]
        split <;> simp
    | httpError status =>
      obtain ⟨k, hk, hreq, hsl⟩ := ih (some ("HTTP " ++ toString status))
        (attemptPrelude url dest a st)
      refine ⟨k + 1, by simpa using Nat.succ_le_succ hk, ?_, ?_⟩
      · simp only [runAttempts, htr]
        rw [hreq]
        simp [List.replicate_succ]
      · simp only [runAttempts, htr]
        rw [hsl]
        simp only [attemptPrelude_sleeps, List.take, List.filterMap_cons]
        split <;> simp
    | connError err =>
      obtain ⟨k, hk, hreq, hsl⟩ := ih (some err) (attemptPrelude url dest a st)
      refine ⟨k + 1, by simpa using Nat.succ_le_succ hk, ?_, ?_⟩
      · simp only [runAttempts, htr]
        rw [hreq]
        simp [List.replicate_succ]
      · simp only [runAttempts, htr]
        rw [hsl]
        simp only [attemptPrelude_sleeps, List.take, List.filterMap_cons]
        split <;> simp

/-- When every attempt the transport can produce for `url` fails, the retry
loop reports failure, issues exactly one GET per attempt index, performs
exactly the linear backoff sleeps, and (when at least one attempt ran or an
error was already recorded) ends with `last_error` set. -/
theorem runAttempts_exhaust (env : Env) (url : String) (dest : FsPath) :
    ∀ (as : List Nat) (le : Option String) (st : St),
      (∀ a ∈ as, (env.transport url a).isOk = false) →
      (runAttempts env url dest as le st).1 = false ∧
      (runAttempts env url dest as le st).2.2.requests
        = st.requests ++ List.replicate as.length url ∧
      (runAttempts env url dest as le st).2.2.sleeps
        = st.sleeps ++ (as.filterMap fun a =>
            if 0 < a then some (backoffBase * a) else none) ∧
      ((le.isSome = true ∨ as ≠ []) →
        (runAttempts env url dest as le st).2.1.isSome = true) := by
  intro as
  induction as with
  | nil =>
    intro le st _
    refine ⟨rfl, by simp [runAttempts], by simp [runAttempts], ?_⟩
    rintro (h | h)
    · exact h
    · exact absurd rfl h
  | cons a rest ih =>
    intro le st hf
    cases htr : env.transport url a with
    | ok cl body =>
      have h := hf a (List.mem_cons_self a rest)
      rw [htr] at h
      simp [AttemptResult.isOk] at h
    | streamFail cl written err =>
      have hrest : ∀ b ∈ rest, (env.transport url b).isOk = false :=
        fun b hb => hf b (List.mem_cons_of_mem a hb)
      obtain ⟨h1, h2, h3, h4⟩ := ih (some err)
        { attemptPrelude url dest a st with
          fs := ((attemptPrelude url dest a st).fs.write (tempPath dest)
            ⟨written, (attemptPrelude url dest a st).clock⟩).unlink (tempPath dest),
          clock := (attemptPrelude url dest a st).clock + 1 } hrest
      refine ⟨?_, ?_, ?_, ?_⟩
      · simp only [runAttempts, htr]
        exact h1
      · simp only [runAttempts, htr]
        rw [h2]
        simp [List.replicate_succ]
      · simp only [runAttempts, htr]
        rw [h3]
        simp only [attemptPrelude_sleeps, List.filterMap_cons]
        split <;> simp
      · intro _
        simp only [runAttempts, htr]
        exact h4 (Or.inl rfl)
    | httpError status =>
      have hrest : ∀ b ∈ rest, (env.transport url b).isOk = false :=
        fun b hb => hf b (List.mem_cons_of_mem a hb)
      obtain ⟨h1, h2, h3, h4⟩ := ih (some ("HTTP " ++ toString status))
        (attemptPrelude url dest a st) hrest
      refine ⟨?_, ?_, ?_, ?_⟩
      · simp only [runAttempts, htr]
        exact h1
      · simp only [runAttempts, htr]
        rw [h2]
        simp [List.replicate_succ]
      · simp only [runAttempts, htr]
        rw [h3]
        simp only [attemptPrelude_sleeps, List.filterMap_cons]
        split <;> simp
      · intro _
        simp only [runAttempts, htr]
        exact h4 (Or.inl rfl)
    | connError err =>
      have hrest : ∀ b ∈ rest, (env.transport url b).isOk = false :=
        fun b hb => hf b (List.mem_cons_of_mem a hb)
      obtain ⟨h1, h2, h3, h4⟩ := ih (some err) (attemptPrelude url dest a st) hrest
      refine ⟨?_, ?_, ?_, ?_⟩
      · simp only [runAttempts, htr]
        exact h1
      · simp only [runAttempts, htr]
        rw [h2]
        simp [List.replicate_succ]
      · simp only [runAttempts, htr]
        rw [h3]
        simp only [attemptPrelude_sleeps, List.filterMap_cons]
        split <;> simp
      · intro _
        simp only [runAttempts, htr]
        exact h4 (Or.inl rfl)

/-- When the retry loop fails, the destination path is untouched, and if no
temporary file existed beforehand none exists afterwards. -/
theorem runAttempts_fail_fs (env : Env) (url : String) (dest : FsPath) :
    ∀ (as : List Nat) (le : Option String) (st : St),
      (runAttempts env url dest as le st).1 = false →
      (runAttempts env url dest as le st).2.2.fs.lookup dest = st.fs.lookup dest ∧
      (st.fs.lookup (tempPath dest) = none →
        (runAttempts env url dest as le st).2.2.fs.lookup (tempPath dest) = none) := by
  intro as
  induction as with
  | nil => intro le st _; exact ⟨rfl, fun h => h⟩
  | cons a rest ih =>
    intro le st hfail
    have hdt : dest ≠ tempPath dest := fun h => tempPath_ne dest h.symm
    cases htr : env.transport url a with
    | ok cl body =>
      exfalso
      revert hfail
      simp only [runAttempts, htr]
      rw [attemptPrelude_fs, FS.pathExists_write_self]
      simp
    | streamFail cl written err =>
      have h := ih (some err)
        { attemptPrelude url dest a st with
          fs := ((attemptPrelude url dest a st).fs.write (tempPath dest)
            ⟨written, (attemptPrelude url dest a st).clock⟩).unlink (tempPath dest),
          clock := (attemptPrelude url dest a st).clock + 1 }
        (by revert hfail; simp only [runAttempts, htr]; exact fun h => h)
      constructor
      · simp only [runAttempts, htr]
        rw [h.1]
        simp only [attemptPrelude_fs]
        rw [FS.lookup_unlink_ne _ _ _ hdt, FS.lookup_write_ne _ _ _ _ hdt]
      · intro _
        simp only [runAttempts, htr]
        refine h.2 ?_
        simp [FS.lookup_unlink_self]
    | httpError status =>
      have h := ih (some ("HTTP " ++ toString status)) (attemptPrelude url dest a st)
        (by revert hfail; simp only [runAttempts, htr]; exact fun h => h)
      constructor
      · simp only [runAttempts, htr]
        rw [h.1]
        simp [attemptPrelude_fs]
      · intro h0
        simp only [runAttempts, htr]
        refine h.2 ?_
        simpa [attemptPrelude_fs] using h0
    | connError err =>
      have h := ih (some err) (attemptPrelude url dest a st)
        (by revert hfail; simp only [runAttempts, htr]; exact fun h => h)
      constructor
      · simp only [runAttempts, htr]
        rw [h.1]
        simp [attemptPrelude_fs]
      · intro h0
        simp only [runAttempts, htr]
        refine h.2 ?_
        simpa [attemptPrelude_fs] using h0

/-- When the retry loop succeeds, some attempt returned a complete 200
stream, the destination holds exactly that stream's bytes stamped with a
modification time inside the loop's clock interval, and no temporary file
remains. -/
theorem runAttempts_succ (env : Env) (url : String) (dest : FsPath) :
    ∀ (as : List Nat) (le : Option String) (st : St),
      (runAttempts env url dest as le st).1 = true →
      ∃ a cl body m, a ∈ as ∧ env.transport url a = AttemptResult.ok cl body ∧
        (runAttempts env url dest as le st).2.2.fs.lookup dest = some ⟨body, m⟩ ∧
        st.clock ≤ m ∧
        (runAttempts env url dest as le st).2.2.clock = m + 1 ∧
        (runAttempts env url dest as le st).2.2.fs.lookup (tempPath dest) = none := by
  intro as
  induction as with
  | nil => intro le st h; exact absurd h (by simp [runAttempts])
  | cons a rest ih =>
    intro le st hsucc
    cases htr : env.transport url a with
    | ok cl body =>
      refine ⟨a, cl, body, st.clock, List.mem_cons_self a rest, htr, ?_, Nat.le_refl _, ?_, ?_⟩
      · simp only [runAttempts, htr]
        rw [attemptPrelude_fs, FS.pathExists_write_self]
        simp only [if_true]
        have := (commitFS_spec st.fs dest ⟨body, st.clock⟩).1
        simpa using this
      · simp only [runAttempts, htr]
        rw [attemptPrelude_fs, FS.pathExists_write_self]
        simp
      · simp only [runAttempts, htr]
        rw [attemptPrelude_fs, FS.pathExists_write_self]
        simp only [if_true]
        have := (commitFS_spec st.fs dest ⟨body, st.clock⟩).2.1
        simpa using this
    | streamFail cl written err =>
      have h := ih (some err)
        { attemptPrelude url dest a st with
          fs := ((attemptPrelude url dest a st).fs.write (tempPath dest)
            ⟨written, (attemptPrelude url dest a st).clock⟩).unlink (tempPath dest),
          clock := (attemptPrelude url dest a st).clock + 1 }
        (by revert hsucc; simp only [runAttempts, htr]; exact fun h => h)
      obtain ⟨b, cl2, body2, m, hb, htr2, hdest, hm, hclk, htmp⟩ := h
      refine ⟨b, cl2, body2, m, List.mem_cons_of_mem a hb, htr2, ?_, ?_, ?_, ?_⟩
      · simp only [runAttempts, htr]
        exact hdest
      · refine Nat.le_trans (Nat.le_succ st.clock) ?_
        simpa using hm
      · simp only [runAttempts, htr]
        exact hclk
      · simp only [runAttempts, htr]
        exact htmp
    | httpError status =>
      have h := ih (some ("HTTP " ++ toString status)) (attemptPrelude url dest a st)
        (by revert hsucc; simp only [runAttempts, htr]; exact fun h => h)
      obtain ⟨b, cl2, body2, m, hb, htr2, hdest, hm, hclk, htmp⟩ := h
      refine ⟨b, cl2, body2, m, List.mem_cons_of_mem a hb, htr2, ?_, ?_, ?_, ?_⟩
      · simp only [runAttempts, htr]
        exact hdest
      · simpa using hm
      · simp only [runAttempts, htr]
        exact hclk
      · simp only [runAttempts, htr]
        exact htmp
    | connError err =>
      have h := ih (some err) (attemptPrelude url dest a st)
        (by revert hsucc; simp only [runAttempts, htr]; exact fun h => h)
      obtain ⟨b, cl2, body2, m, hb, htr2, hdest, hm, hclk, htmp⟩ := h
      refine ⟨b, cl2, body2, m, List.mem_cons_of_mem a hb, htr2, ?_, ?_, ?_, ?_⟩
      · simp only [runAttempts, htr]
        exact hdest
      · simpa using hm
      · simp only [runAttempts, htr]
        exact hclk
      · simp only [runAttempts, htr]
        exact htmp

/-- Combined behaviour of `download_file`: the failure log is only ever
appended to (at most one entry, carrying the url and filename); the clock
never decreases; no path other than the destination and its temporary is
touched; only GETs for `url` are issued, at most `max_retries + 1` of them;
`False` is never returned; on `True` the destination holds exactly the
bytes of some complete 200 response, stamped inside the call's clock
interval, with no temporary left; on anything else the destination is
untouched and no temporary is left behind (when none existed). -/
theorem download_file_spec (env : Env) (url : String) (dest : FsPath)
    (lge : Bool) (mr : Nat) (st : St) :
    ((download_file env url dest lge mr st).2.log = st.log ∨
      ∃ c err, (download_file env url dest lge mr st).2.log
        = st.log ++ [⟨c, url, pathName dest, err⟩]) ∧
    st.clock ≤ (download_file env url dest lge mr st).2.clock ∧
    (∀ p, p ≠ dest → p ≠ tempPath dest →
      (download_file env url dest lge mr st).2.fs.lookup p = st.fs.lookup p) ∧
    (∃ k, k ≤ mr + 1 ∧ (download_file env url dest lge mr st).2.requests
        = st.requests ++ List.replicate k url) ∧
    (download_file env url dest lge mr st).1 ≠ PyResult.ok false ∧
    ((download_file env url dest lge mr st).1 = PyResult.ok true →
      (∃ a cl body m, env.transport url a = AttemptResult.ok cl body ∧
        (download_file env url dest lge mr st).2.fs.lookup dest = some ⟨body, m⟩ ∧
        st.clock ≤ m ∧ m < (download_file env url dest lge mr st).2.clock ∧
        (download_file env url dest lge mr st).2.fs.lookup (tempPath dest) = none ∧
        (download_file env url dest lge mr st).2.log = st.log)) ∧
    ((download_file env url dest lge mr st).1 ≠ PyResult.ok true →
      (download_file env url dest lge mr st).2.fs.lookup dest = st.fs.lookup dest ∧
      (st.fs.lookup (tempPath dest) = none →
        (download_file env url dest lge mr st).2.fs.lookup (tempPath dest) = none)) := by
  have hlog := runAttempts_log env url dest (List.range (mr + 1)) none st
  have hclk := runAttempts_clock env url dest (List.range (mr + 1)) none st
  have hframe := runAttempts_fs_frame env url dest (List.range (mr + 1)) none st
  have hreq := runAttempts_requests_sleeps env url dest (List.range (mr + 1)) none st
  have hfail := runAttempts_fail_fs env url dest (List.range (mr + 1)) none st
  have hsucc := runAttempts_succ env url dest (List.range (mr + 1)) none st
  rcases hra : runAttempts env url dest (List.range (mr + 1)) none st with ⟨b, le2, st1⟩
  rw [hra] at hlog hclk hframe hreq hfail hsucc
  simp only at hlog hclk hframe hreq hfail hsucc
  cases b with
  | true =>
    have hs := hsucc rfl
    obtain ⟨a, cl, body, m, _ha, htr, hdest, hm, hc, htmp⟩ := hs
    unfold download_file
    rw [hra]
    dsimp only
    refine ⟨Or.inl hlog, hclk, hframe, ?_, by simp, ?_, ?_⟩
    · obtain ⟨k, hk, hr, _⟩ := hreq
      exact ⟨k, by simpa using hk, hr⟩
    · intro _
      refine ⟨a, cl, body, m, htr, hdest, hm, ?_, htmp, hlog⟩
      omega
    · intro h
      exact absurd rfl h
  | false =>
    have hf := hfail rfl
    unfold download_file
    rw [hra]
    dsimp only
    by_cases hcond : (lge && le2.isSome) = true
    · have hsome : le2.isSome = true := by
        rcases Bool.and_eq_true_iff.mp hcond with ⟨_, h⟩
        exact h
      obtain ⟨e, he⟩ := Option.isSome_iff_exists.mp hsome
      subst he
      rw [if_pos hcond]
      by_cases hw : env.logWriteFails
      · rw [if_pos hw]
        refine ⟨Or.inl hlog, hclk, hframe, ?_, by simp, by simp, fun _ => hf⟩
        obtain ⟨k, hk, hr, _⟩ := hreq
        exact ⟨k, by simpa using hk, hr⟩
      · rw [if_neg hw]
        refine ⟨?_, ?_, ?_, ?_, by simp, by simp, fun _ => hf⟩
        · refine Or.inr ⟨st1.clock, e, ?_⟩
          simp [log_failed_download, hlog]
        · simp only [log_failed_download]
          omega
        · simpa [log_failed_download] using hframe
        · obtain ⟨k, hk, hr, _⟩ := hreq
          exact ⟨k, by simpa using hk, by simpa [log_failed_download] using hr⟩
    · rw [if_neg hcond]
      refine ⟨Or.inl (by simpa using hlog), ?_, ?_, ?_, by simp, by simp, fun _ => hf⟩
      · simpa using hclk
      · simpa using hframe
      · obtain ⟨k, hk, hr, _⟩ := hreq
        exact ⟨k, by simpa using hk, by simpa using hr⟩

/-- When every attempt for `url` fails, `download_file` consumes exactly
`max_retries + 1` attempts with the full linear backoff schedule, and then:
with error logging on and a writable log it appends one entry (url,
filename, error) and raises `SystemExit(1)`; with error logging on and an
unwritable log the append's own exception propagates instead and nothing is
logged; with logging off it raises `SystemExit(1)` without logging. -/
theorem download_file_exhaust (env : Env) (url : String) (dest : FsPath)
    (lge : Bool) (mr : Nat) (st : St)
    (hf : ∀ a, (env.transport url a).isOk = false) :
    (download_file env url dest lge mr st).2.requests
      = st.requests ++ List.replicate (mr + 1) url ∧
    (download_file env url dest lge mr st).2.sleeps
      = st.sleeps ++ ((List.range (mr + 1)).filterMap fun a =>
          if 0 < a then some (backoffBase * a) else none) ∧
    (lge = true → env.logWriteFails = true →
      (download_file env url dest lge mr st).1
        = PyResult.exc "OSError: failure log is not writable" ∧
      (download_file env url dest lge mr st).2.log = st.log) ∧
    (lge = true → env.logWriteFails = false →
      (download_file env url dest lge mr st).1 = PyResult.sysExit 1 ∧
      ∃ c e, (download_file env url dest lge mr st).2.log
        = st.log ++ [⟨c, url, pathName dest, e⟩]) ∧
    (lge = false →
      (download_file env url dest lge mr st).1 = PyResult.sysExit 1 ∧
      (download_file env url dest lge mr st).2.log = st.log) := by
  have hf' : ∀ a ∈ List.range (mr + 1), (env.transport url a).isOk = false :=
    fun a _ => hf a
  have hex := runAttempts_exhaust env url dest (List.range (mr + 1)) none st hf'
  have hlog := runAttempts_log env url dest (List.range (mr + 1)) none st
  rcases hra : runAttempts env url dest (List.range (mr + 1)) none st with ⟨b, le2, st1⟩
  rw [hra] at hex hlog
  simp only at hex hlog
  obtain ⟨hb, hreq, hsl, hsome⟩ := hex
  subst hb
  have hne : List.range (mr + 1) ≠ [] := by simp
  obtain ⟨e, he⟩ := Option.isSome_iff_exists.mp (hsome (Or.inr hne))
  subst he
  unfold download_file
  rw [hra]
  dsimp only
  refine ⟨?_, ?_, ?_, ?_, ?_⟩
  · cases lge <;> by_cases hw : env.logWriteFails <;>
      simp [hw, log_failed_download, hreq]
  · cases lge <;> by_cases hw : env.logWriteFails <;>
      simp [hw, log_failed_download, hsl]
  · intro hl hw
    subst hl
    simp [hw, hlog]
  · intro hl hw
    subst hl
    refine ⟨by simp [hw], st1.clock, e, ?_⟩
    simp [hw, log_failed_download, hlog]
  · intro hl
    subst hl
    simp [hlog]

/-- When the very first attempt for `url` returns a complete 200 stream,
`download_file` succeeds immediately: it issues one GET, sleeps never,
commits the body to the destination, and advances the clock once. -/
theorem download_file_first_ok (env : Env) (url : String) (dest : FsPath)
    (lge : Bool) (mr : Nat) (st : St) (cl : Option Nat) (body : List Byte)
    (h0 : env.transport url 0 = AttemptResult.ok cl body) :
    download_file env url dest lge mr st
      = (PyResult.ok true,
         { st with
           fs := commitFS (st.fs.write (tempPath dest) ⟨body, st.clock⟩)
             (tempPath dest) dest,
           requests := st.requests ++ [url],
           clock := st.clock + 1 }) := by
  unfold download_file
  rw [List.range_succ_eq_map]
  simp only [runAttempts, h0]
  rw [attemptPrelude_fs, attemptPrelude_clock, FS.pathExists_write_self]
  simp [attemptPrelude]

/-- Combined behaviour of the task loop: the failure log is only appended
to; the clock never decreases; no path outside the tasks' destinations and
temporaries is touched; every issued GET is for the url of some task of the
list; and a loop that runs to completion leaves `failed_downloads` exactly
as it started and appends one outcome per task, each of which is `skipped`
or `succeeded`. -/
theorem runTasks_spec (env : Env) (folder : String) (total : Nat) :
    ∀ (ds : List (String × String)) (i s : Nat) (fd : List (String × String))
      (oc : List TransferOutcome) (st : St),
      (∃ t, (runTasks env folder total ds i s fd oc st).2.log = st.log ++ t) ∧
      st.clock ≤ (runTasks env folder total ds i s fd oc st).2.clock ∧
      (∀ p, (∀ x ∈ ds, p ≠ destPath folder x.2 ∧ p ≠ tempPath (destPath folder x.2)) →
        (runTasks env folder total ds i s fd oc st).2.fs.lookup p = st.fs.lookup p) ∧
      (∃ t, (runTasks env folder total ds i s fd oc st).2.requests = st.requests ++ t ∧
        ∀ u ∈ t, ∃ f, (u, f) ∈ ds) ∧
      (∀ s2 fd2 oc2,
        (runTasks env folder total ds i s fd oc st).1 = PyResult.ok (s2, fd2, oc2) →
        fd2 = fd ∧ ∃ t, oc2 = oc ++ t ∧ t.length = ds.length ∧
          ∀ o ∈ t, o = TransferOutcome.skipped ∨ o = TransferOutcome.succeeded) := by
  intro ds
  induction ds with
  | nil =>
    intro i s fd oc st
    refine ⟨⟨[], by simp [runTasks]⟩, Nat.le_refl _, fun p _ => rfl,
      ⟨[], by simp [runTasks], by simp⟩, ?_⟩
    intro s2 fd2 oc2 h
    simp only [runTasks, PyResult.ok.injEq, Prod.mk.injEq] at h
    exact ⟨h.2.1.symm, [], by simp [h.2.2], rfl, by simp⟩
  | cons x rest ih =>
    intro i s fd oc st
    obtain ⟨u, f⟩ := x
    by_cases hex : st.fs.pathExists (destPath folder f) = true
    · have ihh := ih (i + 1) (s + 1) fd (oc ++ [TransferOutcome.skipped])
        { st with console := st.console ++ [skipLine i total f] }
      obtain ⟨⟨t0, hlog⟩, hclk, hframe, ⟨t1, hreq, hurls⟩, hok⟩ := ihh
      have hred : runTasks env folder total ((u, f) :: rest) i s fd oc st
          = runTasks env folder total rest (i + 1) (s + 1) fd
              (oc ++ [TransferOutcome.skipped])
              { st with console := st.console ++ [skipLine i total f] } := by
        simp only [runTasks, destPath] at hex ⊢
        rw [hex]
        simp
      rw [hred]
      refine ⟨⟨t0, hlog⟩, hclk, ?_, ⟨t1, hreq, ?_⟩, ?_⟩
      · intro p hp
        exact hframe p fun y hy => hp y (List.mem_cons_of_mem _ hy)
      · intro u' hu'
        obtain ⟨g, hg⟩ := hurls u' hu'
        exact ⟨g, List.mem_cons_of_mem _ hg⟩
      · intro s2 fd2 oc2 h
        obtain ⟨hfd, t, ht, htl, hto⟩ := hok s2 fd2 oc2 h
        refine ⟨hfd, TransferOutcome.skipped :: t, ?_, by simp [htl], ?_⟩
        · rw [ht, List.append_assoc]
          rfl
        · intro o ho
          rcases List.mem_cons.mp ho with h' | h'
          · exact Or.inl h'
          · exact hto o h'
    · have hexf : st.fs.pathExists (destPath folder f) = false :=
        Bool.eq_false_iff.mpr hex
      rcases hdf : download_file env u (destPath folder f) true 2
        { st with console := st.console ++ [startLine i total f] } with ⟨r, st2⟩
      have hspec := download_file_spec env u (destPath folder f) true 2
        { st with console := st.console ++ [startLine i total f] }
      rw [hdf] at hspec
      simp only at hspec
      obtain ⟨hslog, hsclk, hsframe, ⟨k, hk, hsreq⟩, hsnf, hssucc, hsfail⟩ := hspec
      have hred : runTasks env folder total ((u, f) :: rest) i s fd oc st
          = match (r, st2) with
            | (PyResult.ok result, st2) =>
              if result then
                runTasks env folder total rest (i + 1) (s + 1) fd
                  (oc ++ [TransferOutcome.succeeded]) st2
              else
                runTasks env folder total rest (i + 1) s
                  (fd ++ [(u, f)]) (oc ++ [TransferOutcome.failed]) st2
            | (PyResult.sysExit c, st2) => (PyResult.sysExit c, st2)
            | (PyResult.exc m, st2) => (PyResult.exc m, st2) := by
        simp only [runTasks, destPath] at hexf ⊢
        rw [hexf]
        simp only [Bool.false_eq_true, if_false]
        rw [← hdf]
        rfl
      cases r with
      | ok b =>
        cases b with
        | false => exact absurd rfl hsnf
        | true =>
          have ihh := ih (i + 1) (s + 1) fd (oc ++ [TransferOutcome.succeeded]) st2
          obtain ⟨⟨t0, hlog⟩, hclk, hframe, ⟨t1, hreq, hurls⟩, hok⟩ := ihh
          rw [hred]
          dsimp only
          rw [if_pos rfl]
          refine ⟨?_, ?_, ?_, ?_, ?_⟩
          · rcases hslog with h' | ⟨c, e, h'⟩
            · exact ⟨t0, by rw [hlog, h']⟩
            · exact ⟨⟨_, u, pathName (destPath folder f), e⟩ :: t0,
                by rw [hlog, h', List.append_assoc]; rfl⟩
          · exact Nat.le_trans hsclk hclk
          · intro p hp
            have hhead := hp (u, f) (List.mem_cons_self _ _)
            rw [hframe p fun y hy => hp y (List.mem_cons_of_mem _ hy),
              hsframe p hhead.1 hhead.2]
          · refine ⟨List.replicate k u ++ t1, ?_, ?_⟩
            · rw [hreq, hsreq, List.append_assoc]
            · intro u' hu'
              rcases List.mem_append.mp hu' with h' | h'
              · exact ⟨f, by rw [List.eq_of_mem_replicate h']; exact List.mem_cons_self _ _⟩
              · obtain ⟨g, hg⟩ := hurls u' h'
                exact ⟨g, List.mem_cons_of_mem _ hg⟩
          · intro s2' fd2 oc2 h
            obtain ⟨hfd, t, ht, htl, hto⟩ := hok s2' fd2 oc2 h
            refine ⟨hfd, TransferOutcome.succeeded :: t, ?_, by simp [htl], ?_⟩
            · rw [ht, List.append_assoc]
              rfl
            · intro o ho
              rcases List.mem_cons.mp ho with h' | h'
              · exact Or.inr h'
              · exact hto o h'
      | sysExit c =>
        rw [hred]
        dsimp only
        refine ⟨?_, hsclk, ?_, ?_, ?_⟩
        · rcases hslog with h' | ⟨c', e, h'⟩
          · exact ⟨[], by simpa using h'⟩
          · exact ⟨[⟨c', u, pathName (destPath folder f), e⟩], h'⟩
        · intro p hp
          have hhead := hp (u, f) (List.mem_cons_self _ _)
          exact hsframe p hhead.1 hhead.2
        · refine ⟨List.replicate k u, hsreq, ?_⟩
          intro u' hu'
          exact ⟨f, by rw [List.eq_of_mem_replicate hu']; exact List.mem_cons_self _ _⟩
        · intro s2' fd2 oc2 h
          exact absurd h (by simp)
      | exc m =>
        rw [hred]
        dsimp only
        refine ⟨?_, hsclk, ?_, ?_, ?_⟩
        · rcases hslog with h' | ⟨c', e, h'⟩
          · exact ⟨[], by simpa using h'⟩
          · exact ⟨[⟨c', u, pathName (destPath folder f), e⟩], h'⟩
        · intro p hp
          have hhead := hp (u, f) (List.mem_cons_self _ _)
          exact hsframe p hhead.1 hhead.2
        · refine ⟨List.replicate k u, hsreq, ?_⟩
          intro u' hu'
          exact ⟨f, by rw [List.eq_of_mem_replicate hu']; exact List.mem_cons_self _ _⟩
        · intro s2' fd2 oc2 h
          exact absurd h (by simp)

/-- The task loop is sequential composition: running `l1 ++ l2` is running
`l1` and, if it completes, running `l2` from the resulting locals and
state; a `SystemExit` or exception during `l1` aborts the whole loop. -/
theorem runTasks_append (env : Env) (folder : String) (total : Nat) :
    ∀ (l1 l2 : List (String × String)) (i s : Nat) (fd : List (String × String))
      (oc : List TransferOutcome) (st : St),
      runTasks env folder total (l1 ++ l2) i s fd oc st
        = match runTasks env folder total l1 i s fd oc st with
          | (PyResult.ok (s2, fd2, oc2), st2) =>
            runTasks env folder total l2 (i + l1.length) s2 fd2 oc2 st2
          | (PyResult.sysExit c, st2) => (PyResult.sysExit c, st2)
          | (PyResult.exc m, st2) => (PyResult.exc m, st2) := by
  intro l1
  induction l1 with
  | nil =>
    intro l2 i s fd oc st
    simp [runTasks]
  | cons x rest ih =>
    intro l2 i s fd oc st
    obtain ⟨u, f⟩ := x
    by_cases hex : st.fs.pathExists (destPath folder f) = true
    · simp only [List.cons_append, runTasks, destPath] at hex ⊢
      rw [hex]
      simp only [if_true]
      simp only [List.append_eq]
      rw [ih]
      simp only [List.length_cons]
      rw [show i + (rest.length + 1) = i + 1 + rest.length from by omega]
    · have hexf : st.fs.pathExists (destPath folder f) = false :=
        Bool.eq_false_iff.mpr hex
      rcases hdf : download_file env u (destPath folder f) true 2
        { st with console := st.console ++ [startLine i total f] } with ⟨r, st2⟩
      simp only [destPath] at hdf
      simp only [List.cons_append, runTasks, destPath] at hexf ⊢
      rw [hexf]
      simp only [Bool.false_eq_true, if_false]
      rw [hdf]
      cases r with
      | ok b =>
        cases b with
        | true =>
          dsimp only
          simp only [List.append_eq]
          rw [ih]
          simp only [List.length_cons]
          rw [show i + (rest.length + 1) = i + 1 + rest.length from by omega]
          simp only [if_true]
        | false =>
          dsimp only
          simp only [List.append_eq, Bool.false_eq_true, if_false, List.length_cons]
          rw [show i + (rest.length + 1) = i + 1 + rest.length from by omega]
          exact ih l2 (i + 1) s (fd ++ [(u, f)]) (oc ++ [TransferOutcome.failed]) st2
      | sysExit c => rfl
      | exc m => rfl

/-- One loop step on a task whose destination exists, with an arbitrary
tail of remaining tasks. -/
theorem runTasks_cons_skip (env : Env) (folder : String) (total : Nat)
    (u f : String) (rest : List (String × String)) (i s : Nat)
    (fd : List (String × String)) (oc : List TransferOutcome) (st : St)
    (hex : st.fs.pathExists (destPath folder f) = true) :
    runTasks env folder total ((u, f) :: rest) i s fd oc st
      = runTasks env folder total rest (i + 1) (s + 1) fd
          (oc ++ [TransferOutcome.skipped])
          { st with console := st.console ++ [skipLine i total f] } := by
  simp only [runTasks, destPath] at hex ⊢
  rw [hex]
  simp

/-- One loop step on a task whose destination does not exist, with an
arbitrary tail of remaining tasks. -/
theorem runTasks_cons_download (env : Env) (folder : String) (total : Nat)
    (u f : String) (rest : List (String × String)) (i s : Nat)
    (fd : List (String × String)) (oc : List TransferOutcome) (st : St)
    (hex : st.fs.pathExists (destPath folder f) = false) :
    runTasks env folder total ((u, f) :: rest) i s fd oc st
      = match download_file env u (destPath folder f) true 2
          { st with console := st.console ++ [startLine i total f] } with
        | (PyResult.ok true, st2) =>
          runTasks env folder total rest (i + 1) (s + 1) fd
            (oc ++ [TransferOutcome.succeeded]) st2
        | (PyResult.ok false, st2) =>
          runTasks env folder total rest (i + 1) s (fd ++ [(u, f)])
            (oc ++ [TransferOutcome.failed]) st2
        | (PyResult.sysExit c, st2) => (PyResult.sysExit c, st2)
        | (PyResult.exc m, st2) => (PyResult.exc m, st2) := by
  rcases hdf : download_file env u (destPath folder f) true 2
    { st with console := st.console ++ [startLine i total f] } with ⟨r, st2⟩
  simp only [destPath] at hdf
  simp only [runTasks, destPath] at hex ⊢
  rw [hex]
  simp only [Bool.false_eq_true, if_false]
  rw [hdf]
  cases r with
  | ok b =>
    cases b with
    | true =>
      dsimp only
      rw [if_pos rfl]
    | false =>
      dsimp only
      rw [if_neg (by simp)]
  | sysExit c => rfl
  | exc m => rfl

/-- One loop step on a task whose destination already exists and no
remaining tasks: the skip line is printed, `successful` is incremented, the
outcome is `skipped`, and nothing else changes — no GET is issued. -/
theorem runTasks_skip_step (env : Env) (folder : String) (total : Nat)
    (u f : String) (i s : Nat) (fd : List (String × String))
    (oc : List TransferOutcome) (st : St)
    (hex : st.fs.pathExists (destPath folder f) = true) :
    runTasks env folder total [(u, f)] i s fd oc st
      = (PyResult.ok (s + 1, fd, oc ++ [TransferOutcome.skipped]),
         { st with console := st.console ++ [skipLine i total f] }) := by
  simp only [runTasks, destPath] at hex ⊢
  rw [hex]
  simp [runTasks]

/-- One loop step on a task whose destination does not exist yet: the start
line is printed and `download_file` decides the outcome. -/
theorem runTasks_download_step (env : Env) (folder : String) (total : Nat)
    (u f : String) (i s : Nat) (fd : List (String × String))
    (oc : List TransferOutcome) (st : St)
    (hex : st.fs.pathExists (destPath folder f) = false) :
    runTasks env folder total [(u, f)] i s fd oc st
      = match download_file env u (destPath folder f) true 2
          { st with console := st.console ++ [startLine i total f] } with
        | (PyResult.ok true, st2) =>
          (PyResult.ok (s + 1, fd, oc ++ [TransferOutcome.succeeded]), st2)
        | (PyResult.ok false, st2) =>
          (PyResult.ok (s, fd ++ [(u, f)], oc ++ [TransferOutcome.failed]), st2)
        | (PyResult.sysExit c, st2) => (PyResult.sysExit c, st2)
        | (PyResult.exc m, st2) => (PyResult.exc m, st2) := by
  rcases hdf : download_file env u (destPath folder f) true 2
    { st with console := st.console ++ [startLine i total f] } with ⟨r, st2⟩
  simp only [destPath] at hdf
  simp only [runTasks, destPath] at hex ⊢
  rw [hex]
  simp only [Bool.false_eq_true, if_false]
  rw [hdf]
  cases r with
  | ok b =>
    cases b with
    | true =>
      dsimp only
      rw [if_pos rfl]
    | false =>
      dsimp only
      rw [if_neg (by simp)]
  | sysExit c => rfl
  | exc m => rfl

/-- The request and sleep traces of a whole `download_file` call: some
`k ≤ max_retries + 1` attempts ran, each issuing one GET, with the linear
backoff sleep before every retry. -/
theorem download_file_requests_sleeps (env : Env) (url : String) (dest : FsPath)
    (lge : Bool) (mr : Nat) (st : St) :
    ∃ k, k ≤ mr + 1 ∧
      (download_file env url dest lge mr st).2.requests
        = st.requests ++ List.replicate k url ∧
      (download_file env url dest lge mr st).2.sleeps
        = st.sleeps ++ ((List.range k).filterMap fun a =>
            if 0 < a then some (backoffBase * a) else none) := by
  have hreq := runAttempts_requests_sleeps env url dest (List.range (mr + 1)) none st
  rcases hra : runAttempts env url dest (List.range (mr + 1)) none st with ⟨b, le2, st1⟩
  rw [hra] at hreq
  simp only at hreq
  obtain ⟨k, hk, hr, hs⟩ := hreq
  rw [List.length_range] at hk
  have htake : List.take k (List.range (mr + 1)) = List.range k := by
    rw [List.take_range]
    exact congrArg List.range (Nat.min_eq_left hk)
  rw [htake] at hs
  refine ⟨k, hk, ?_⟩
  unfold download_file
  rw [hra]
  dsimp only
  cases b with
  | true => exact ⟨hr, hs⟩
  | false =>
    dsimp only
    by_cases hcond : (lge && le2.isSome) = true
    · rw [if_pos hcond]
      by_cases hw : env.logWriteFails
      · rw [if_pos hw]
        exact ⟨hr, hs⟩
      · rw [if_neg hw]
        exact ⟨by simpa [log_failed_download] using hr,
          by simpa [log_failed_download] using hs⟩
    · rw [if_neg hcond]
      exact ⟨by simpa using hr, by simpa using hs⟩

/-- A path that is no task's temporary staging path and exists before the
task loop still exists afterwards: tasks only ever add destination files
(and their own temporaries, which are cleaned up). -/
theorem runTasks_mono (env : Env) (folder : String) (total : Nat) :
    ∀ (ds : List (String × String)) (i s : Nat) (fd : List (String × String))
      (oc : List TransferOutcome) (st : St) (p : FsPath),
      (∀ x ∈ ds, p ≠ tempPath (destPath folder x.2)) →
      st.fs.pathExists p = true →
      (runTasks env folder total ds i s fd oc st).2.fs.pathExists p = true := by
  intro ds
  induction ds with
  | nil => intro i s fd oc st p _ h; exact h
  | cons x rest ih =>
    intro i s fd oc st p hp hex
    obtain ⟨u, f⟩ := x
    have hpt : p ≠ tempPath (destPath folder f) := hp (u, f) (List.mem_cons_self _ _)
    have hprest : ∀ y ∈ rest, p ≠ tempPath (destPath folder y.2) :=
      fun y hy => hp y (List.mem_cons_of_mem _ hy)
    by_cases hexf : st.fs.pathExists (destPath folder f) = true
    · have hred : runTasks env folder total ((u, f) :: rest) i s fd oc st
          = runTasks env folder total rest (i + 1) (s + 1) fd
              (oc ++ [TransferOutcome.skipped])
              { st with console := st.console ++ [skipLine i total f] } := by
        simp only [runTasks, destPath] at hexf ⊢
        rw [hexf]
        simp
      rw [hred]
      exact ih _ _ _ _ _ p hprest hex
    · have hpd : p ≠ destPath folder f := by
        intro h
        rw [h] at hex
        exact absurd hex hexf
      have hexff : st.fs.pathExists (destPath folder f) = false :=
        Bool.eq_false_iff.mpr hexf
      rcases hdf : download_file env u (destPath folder f) true 2
        { st with console := st.console ++ [startLine i total f] } with ⟨r, st2⟩
      have hspec := download_file_spec env u (destPath folder f) true 2
        { st with console := st.console ++ [startLine i total f] }
      rw [hdf] at hspec
      have hfr : st2.fs.lookup p = st.fs.lookup p := hspec.2.2.1 p hpd hpt
      have hex2 : st2.fs.pathExists p = true := by
        unfold FS.pathExists at hex ⊢
        rw [hfr]
        exact hex
      have hred : runTasks env folder total ((u, f) :: rest) i s fd oc st
          = match (r, st2) with
            | (PyResult.ok result, st2) =>
              if result then
                runTasks env folder total rest (i + 1) (s + 1) fd
                  (oc ++ [TransferOutcome.succeeded]) st2
              else
                runTasks env folder total rest (i + 1) s
                  (fd ++ [(u, f)]) (oc ++ [TransferOutcome.failed]) st2
            | (PyResult.sysExit c, st2) => (PyResult.sysExit c, st2)
            | (PyResult.exc m, st2) => (PyResult.exc m, st2) := by
        simp only [destPath] at hdf
        simp only [runTasks, destPath] at hexff ⊢
        rw [hexff]
        simp only [Bool.false_eq_true, if_false]
        rw [hdf]
      rw [hred]
      cases r with
      | ok b =>
        cases b with
        | true =>
          dsimp only
          rw [if_pos rfl]
          exact ih _ _ _ _ _ p hprest hex2
        | false =>
          dsimp only
          rw [if_neg (by simp)]
          exact ih _ _ _ _ _ p hprest hex2
      | sysExit c => exact hex2
      | exc m => exact hex2

/-- `download_all_files` only adds console lines on top of the final task
loop state: filesystem, log, sleeps, requests and clock are those of the
loop. -/
theorem download_all_files_frame (env : Env) (downloads : List (String × String))
    (folder : String) (st : St) :
    (download_all_files env downloads folder st).2.fs
      = (runTasks env folder downloads.length downloads 1 0 [] [] st).2.fs ∧
    (download_all_files env downloads folder st).2.log
      = (runTasks env folder downloads.length downloads 1 0 [] [] st).2.log ∧
    (download_all_files env downloads folder st).2.sleeps
      = (runTasks env folder downloads.length downloads 1 0 [] [] st).2.sleeps ∧
    (download_all_files env downloads folder st).2.requests
      = (runTasks env folder downloads.length downloads 1 0 [] [] st).2.requests ∧
    (download_all_files env downloads folder st).2.clock
      = (runTasks env folder downloads.length downloads 1 0 [] [] st).2.clock := by
  unfold download_all_files
  rcases hrt : runTasks env folder downloads.length downloads 1 0 [] [] st with ⟨r, st1⟩
  cases r with
  | ok v =>
    obtain ⟨s2, fd2, oc2⟩ := v
    exact ⟨rfl, rfl, rfl, rfl, rfl⟩
  | sysExit c => exact ⟨rfl, rfl, rfl, rfl, rfl⟩
  | exc m => exact ⟨rfl, rfl, rfl, rfl, rfl⟩

/-- If the destination of the task `(u, f)` at position `pre.length` of the
batch already exists when the loop starts — and no earlier task shares its
filename or stages into it, and no other task shares its url — then the
loop issues no GET for `u`, and a completed loop reports outcome `skipped`
at that task's position. -/
theorem skip_task_aux (env : Env) (folder : String) (total : Nat) :
    ∀ (pre : List (String × String)) (u f : String) (post : List (String × String))
      (i s : Nat) (fd : List (String × String)) (oc : List TransferOutcome) (st : St),
      (∀ x ∈ pre, f ≠ x.2 ∧ f ≠ x.2 ++ ".tmp" ∧ x.1 ≠ u) →
      (∀ x ∈ post, x.1 ≠ u) →
      st.fs.pathExists (destPath folder f) = true →
      (runTasks env folder total (pre ++ (u, f) :: post) i s fd oc st).2.requests.count u
        = st.requests.count u ∧
      (∀ s2 fd2 oc2 st2,
        runTasks env folder total (pre ++ (u, f) :: post) i s fd oc st
          = (PyResult.ok (s2, fd2, oc2), st2) →
        oc2[oc.length + pre.length]? = some TransferOutcome.skipped) := by
  intro pre
  induction pre with
  | nil =>
    intro u f post i s fd oc st _hpre hpost hex
    simp only [List.nil_append, List.length_nil, Nat.add_zero]
    have hred : runTasks env folder total ((u, f) :: post) i s fd oc st
        = runTasks env folder total post (i + 1) (s + 1) fd
            (oc ++ [TransferOutcome.skipped])
            { st with console := st.console ++ [skipLine i total f] } := by
      simp only [runTasks, destPath] at hex ⊢
      rw [hex]
      simp
    rw [hred]
    obtain ⟨_, _, _, ⟨t1, hreq, hurls⟩, hok⟩ := runTasks_spec env folder total post
      (i + 1) (s + 1) fd (oc ++ [TransferOutcome.skipped])
      { st with console := st.console ++ [skipLine i total f] }
    constructor
    · rw [hreq, List.count_append]
      have hnot : u ∉ t1 := by
        intro hu
        obtain ⟨g, hg⟩ := hurls u hu
        exact hpost (u, g) hg rfl
      rw [List.count_eq_zero.mpr hnot]
      simp
    · intro s2 fd2 oc2 st2 h
      have h1 : (runTasks env folder total post (i + 1) (s + 1) fd
          (oc ++ [TransferOutcome.skipped])
          { st with console := st.console ++ [skipLine i total f] }).1
          = PyResult.ok (s2, fd2, oc2) := by rw [h]
      obtain ⟨_, t, ht, _, _⟩ := hok s2 fd2 oc2 h1
      rw [ht, List.append_assoc, List.getElem?_append_right (Nat.le_refl _)]
      simp
  | cons x pre2 ih =>
    intro u f post i s fd oc st hpre hpost hex
    obtain ⟨ux, fx⟩ := x
    obtain ⟨hne, hnet, hneu⟩ := hpre (ux, fx) (List.mem_cons_self _ _)
    have hpre2 : ∀ y ∈ pre2, f ≠ y.2 ∧ f ≠ y.2 ++ ".tmp" ∧ y.1 ≠ u :=
      fun y hy => hpre y (List.mem_cons_of_mem _ hy)
    have harith : oc.length + ((ux, fx) :: pre2).length
        = (oc ++ [TransferOutcome.skipped]).length + pre2.length := by
      simp only [List.length_cons, List.length_append, List.length_singleton,
        List.length_nil]
      omega
    have harith2 : oc.length + ((ux, fx) :: pre2).length
        = (oc ++ [TransferOutcome.succeeded]).length + pre2.length := by
      simp only [List.length_cons, List.length_append, List.length_singleton,
        List.length_nil]
      omega
    simp only [List.cons_append]
    by_cases hexX : st.fs.pathExists (destPath folder fx) = true
    · have hred : runTasks env folder total ((ux, fx) :: (pre2 ++ (u, f) :: post)) i s fd oc st
          = runTasks env folder total (pre2 ++ (u, f) :: post) (i + 1) (s + 1) fd
              (oc ++ [TransferOutcome.skipped])
              { st with console := st.console ++ [skipLine i total fx] } := by
        simp only [runTasks, destPath] at hexX ⊢
        rw [hexX]
        simp
      rw [hred]
      have hrec := ih u f post (i + 1) (s + 1) fd (oc ++ [TransferOutcome.skipped])
        { st with console := st.console ++ [skipLine i total fx] } hpre2 hpost hex
      refine ⟨hrec.1, ?_⟩
      intro s2 fd2 oc2 st2 h
      rw [harith]
      exact hrec.2 s2 fd2 oc2 st2 h
    · have hpd : destPath folder f ≠ destPath folder fx := by
        simp only [destPath, ne_eq, List.cons.injEq]
        intro hcon
        exact hne hcon.2.1
      have hpt : destPath folder f ≠ tempPath (destPath folder fx) := by
        rw [tempPath_destPath]
        simp only [destPath, ne_eq, List.cons.injEq]
        intro hcon
        exact hnet hcon.2.1
      have hexff : st.fs.pathExists (destPath folder fx) = false :=
        Bool.eq_false_iff.mpr hexX
      rcases hdf : download_file env ux (destPath folder fx) true 2
        { st with console := st.console ++ [startLine i total fx] } with ⟨r, st2⟩
      have hspec := download_file_spec env ux (destPath folder fx) true 2
        { st with console := st.console ++ [startLine i total fx] }
      rw [hdf] at hspec
      obtain ⟨_, _, hsframe, ⟨k, _, hsreq⟩, hsnf, _, _⟩ := hspec
      have hex2 : st2.fs.pathExists (destPath folder f) = true := by
        unfold FS.pathExists at hex ⊢
        rw [hsframe _ hpd hpt]
        exact hex
      have hcnt : st2.requests.count u = st.requests.count u := by
        rw [hsreq, List.count_append]
        have hnot : u ∉ List.replicate k ux := by
          intro hu
          exact hneu (List.eq_of_mem_replicate hu).symm
        rw [List.count_eq_zero.mpr hnot]
        simp
      have hred : runTasks env folder total
            ((ux, fx) :: (pre2 ++ (u, f) :: post)) i s fd oc st
          = match (r, st2) with
            | (PyResult.ok result, st2) =>
              if result then
                runTasks env folder total (pre2 ++ (u, f) :: post) (i + 1) (s + 1) fd
                  (oc ++ [TransferOutcome.succeeded]) st2
              else
                runTasks env folder total (pre2 ++ (u, f) :: post) (i + 1) s
                  (fd ++ [(ux, fx)]) (oc ++ [TransferOutcome.failed]) st2
            | (PyResult.sysExit c, st2) => (PyResult.sysExit c, st2)
            | (PyResult.exc m, st2) => (PyResult.exc m, st2) := by
        simp only [destPath] at hdf
        simp only [runTasks, destPath] at hexff ⊢
        rw [hexff]
        simp only [Bool.false_eq_true, if_false]
        rw [hdf]
      rw [hred]
      cases r with
      | ok b =>
        cases b with
        | false => exact absurd rfl hsnf
        | true =>
          dsimp only
          rw [if_pos rfl]
          have hrec := ih u f post (i + 1) (s + 1) fd
            (oc ++ [TransferOutcome.succeeded]) st2 hpre2 hpost hex2
          refine ⟨hrec.1.trans hcnt, ?_⟩
          intro s2 fd2 oc2 st2' h
          rw [harith2]
          exact hrec.2 s2 fd2 oc2 st2' h
      | sysExit c =>
        refine ⟨hcnt, ?_⟩
        intro s2 fd2 oc2 st2' h
        exact absurd h (by simp)
      | exc m =>
        refine ⟨hcnt, ?_⟩
        intro s2 fd2 oc2 st2' h
        exact absurd h (by simp)

/-- C1: Atomic File Writer contract.  Provided no stray temporary file
pre-exists and the transport delivers complete 200 bodies whose length
matches any announced content length, a `download_file` call either returns
`True` with the destination holding exactly the bytes of the succeeding
attempt's response stream — whose length equals the server-reported content
length when provided — and no `.tmp` staging file remaining; or it fails
(`SystemExit` or exception) with the destination untouched and no
temporary artifact remaining.  No truncated destination is ever visible. -/
theorem claim_C1 (env : Env) (url : String) (dest : FsPath) (lge : Bool)
    (mr : Nat) (st : St)
    (htmp0 : st.fs.lookup (tempPath dest) = none)
    (hwf : ∀ a cl body, env.transport url a = AttemptResult.ok cl body →
      ∀ n, cl = some n → body.length = n) :
    ((download_file env url dest lge mr st).1 = PyResult.ok true →
      ∃ a cl body m, env.transport url a = AttemptResult.ok cl body ∧
        (download_file env url dest lge mr st).2.fs.lookup dest = some ⟨body, m⟩ ∧
        (∀ n, cl = some n → body.length = n) ∧
        (download_file env url dest lge mr st).2.fs.lookup (tempPath dest) = none) ∧
    ((download_file env url dest lge mr st).1 ≠ PyResult.ok true →
      (download_file env url dest lge mr st).2.fs.lookup dest = st.fs.lookup dest ∧
      (download_file env url dest lge mr st).2.fs.lookup (tempPath dest) = none) := by
  obtain ⟨_, _, _, _, _, hsucc, hfail⟩ := download_file_spec env url dest lge mr st
  constructor
  · intro h
    obtain ⟨a, cl, body, m, htr, hdest, _, _, htmp, _⟩ := hsucc h
    exact ⟨a, cl, body, m, htr, hdest, fun n hn => hwf a cl body htr n hn, htmp⟩
  · intro h
    exact ⟨(hfail h).1, (hfail h).2 htmp0⟩

theorem claim_C1_witness :
    ((download_file envAlwaysOk "u" ["d", "a.zip"] true 2 st0).1 = PyResult.ok true →
      ∃ a cl body m, envAlwaysOk.transport "u" a = AttemptResult.ok cl body ∧
        (download_file envAlwaysOk "u" ["d", "a.zip"] true 2 st0).2.fs.lookup
          ["d", "a.zip"] = some ⟨body, m⟩ ∧
        (∀ n, cl = some n → body.length = n) ∧
        (download_file envAlwaysOk "u" ["d", "a.zip"] true 2 st0).2.fs.lookup
          (tempPath ["d", "a.zip"]) = none) ∧
    ((download_file envAlwaysOk "u" ["d", "a.zip"] true 2 st0).1 ≠ PyResult.ok true →
      (download_file envAlwaysOk "u" ["d", "a.zip"] true 2 st0).2.fs.lookup
        ["d", "a.zip"] = st0.fs.lookup ["d", "a.zip"] ∧
      (download_file envAlwaysOk "u" ["d", "a.zip"] true 2 st0).2.fs.lookup
        (tempPath ["d", "a.zip"]) = none) :=
  claim_C1 envAlwaysOk "u" ["d", "a.zip"] true 2 st0 rfl
    (by
      intro a cl body h n hn
      have h' : AttemptResult.ok (some 3) [7, 8, 9] = AttemptResult.ok cl body := h
      simp only [AttemptResult.ok.injEq] at h'
      obtain ⟨h1, h2⟩ := h'
      subst h2
      rw [← h1] at hn
      simp only [Option.some.injEq] at hn
      simp [← hn])

/-- C2: Retry Controller schedule.  Every `download_file` call runs at most
`max_retries + 1` attempts, each issuing one GET, and before the attempt of
index `a > 0` it sleeps exactly `backoffBase * a` (linear in the attempt
index).  With an always-failing transport exactly `max_retries + 1`
attempts run with the full schedule; in particular with `max_retries = 2`
there are exactly 3 attempts with inter-attempt delays `backoffBase` and
`2 * backoffBase`. -/
theorem claim_C2 (env : Env) (url : String) (dest : FsPath) (lge : Bool)
    (mr : Nat) (st : St) :
    (∃ k, k ≤ mr + 1 ∧
      (download_file env url dest lge mr st).2.requests
        = st.requests ++ List.replicate k url ∧
      (download_file env url dest lge mr st).2.sleeps
        = st.sleeps ++ ((List.range k).filterMap fun a =>
            if 0 < a then some (backoffBase * a) else none)) ∧
    ((∀ a, (env.transport url a).isOk = false) →
      (download_file env url dest lge mr st).2.requests
        = st.requests ++ List.replicate (mr + 1) url ∧
      (download_file env url dest lge mr st).2.sleeps
        = st.sleeps ++ ((List.range (mr + 1)).filterMap fun a =>
            if 0 < a then some (backoffBase * a) else none)) ∧
    ((∀ a, (env.transport url a).isOk = false) → mr = 2 →
      (download_file env url dest lge mr st).2.requests
        = st.requests ++ [url, url, url] ∧
      (download_file env url dest lge mr st).2.sleeps
        = st.sleeps ++ [backoffBase, 2 * backoffBase]) := by
  refine ⟨download_file_requests_sleeps env url dest lge mr st, ?_, ?_⟩
  · intro hf
    obtain ⟨hreq, hsl, _⟩ := download_file_exhaust env url dest lge mr st hf
    exact ⟨hreq, hsl⟩
  · intro hf hmr
    subst hmr
    obtain ⟨hreq, hsl, _⟩ := download_file_exhaust env url dest lge 2 st hf
    constructor
    · rw [hreq]
      rfl
    · rw [hsl]
      rfl

theorem claim_C2_witness :
    (download_file envAlwaysFail "u" ["d", "a.zip"] true 2 st0).2.requests
      = ["u", "u", "u"] ∧
    (download_file envAlwaysFail "u" ["d", "a.zip"] true 2 st0).2.sleeps
      = [backoffBase, 2 * backoffBase] := by
  have h := (claim_C2 envAlwaysFail "u" ["d", "a.zip"] true 2 st0).2.2
    (fun _ => rfl) rfl
  simpa [st0] using h

/-- C6: Failure Log recording.  A task that exhausts all retry attempts
(with a writable log) raises `SystemExit(1)` after appending exactly one
entry carrying a timestamp, the task's url, its filename and the error
text; and the engine treats the log as append-only — every
`download_all_files` run leaves the initial log as a proper prefix of the
final log, never rewriting or deduplicating it. -/
theorem claim_C6 (env : Env) (url : String) (dest : FsPath) (mr : Nat) (st : St)
    (hf : ∀ a, (env.transport url a).isOk = false)
    (hw : env.logWriteFails = false) :
    ((download_file env url dest true mr st).1 = PyResult.sysExit 1 ∧
      ∃ c e, (download_file env url dest true mr st).2.log
        = st.log ++ [⟨c, url, pathName dest, e⟩]) ∧
    (∀ (env2 : Env) (ds : List (String × String)) (folder : String) (st2 : St),
      ∃ t, (download_all_files env2 ds folder st2).2.log = st2.log ++ t) := by
  constructor
  · exact (download_file_exhaust env url dest true mr st hf).2.2.2.1 rfl hw
  · intro env2 ds folder st2
    obtain ⟨⟨t, hlog⟩, _⟩ := runTasks_spec env2 folder ds.length ds 1 0 [] [] st2
    have hfr := (download_all_files_frame env2 ds folder st2).2.1
    exact ⟨t, by rw [hfr, hlog]⟩

theorem claim_C6_witness :
    ((download_file envAlwaysFail "u" ["d", "a.zip"] true 2 st0).1
        = PyResult.sysExit 1 ∧
      ∃ c e, (download_file envAlwaysFail "u" ["d", "a.zip"] true 2 st0).2.log
        = st0.log ++ [⟨c, "u", pathName ["d", "a.zip"], e⟩]) ∧
    (∀ (env2 : Env) (ds : List (String × String)) (folder : String) (st2 : St),
      ∃ t, (download_all_files env2 ds folder st2).2.log = st2.log ++ t) :=
  claim_C6 envAlwaysFail "u" ["d", "a.zip"] 2 st0 (fun _ => rfl) rfl

/-- C9: `download_file` never returns `False`: every call either returns
`True`, or (when the failure log is writable) raises `SystemExit(1)` after
exhausting its retries; consequently in `download_all_files` the
`failed_downloads` list is still empty whenever the loop completes and the
summary is printed, so the branch reporting failed downloads is
unreachable in a run that reaches the summary. -/
theorem claim_C9 (env : Env) (url : String) (dest : FsPath) (lge : Bool)
    (mr : Nat) (st : St) :
    (download_file env url dest lge mr st).1 ≠ PyResult.ok false ∧
    (env.logWriteFails = false →
      (download_file env url dest lge mr st).1 = PyResult.ok true ∨
      (download_file env url dest lge mr st).1 = PyResult.sysExit 1) ∧
    (∀ (ds : List (String × String)) (folder : String) (s2 : Nat)
      (fd2 : List (String × String)) (oc2 : List TransferOutcome) (st2 : St),
      runTasks env folder ds.length ds 1 0 [] [] st
        = (PyResult.ok (s2, fd2, oc2), st2) → fd2 = []) := by
  refine ⟨(download_file_spec env url dest lge mr st).2.2.2.2.1, ?_, ?_⟩
  · intro hw
    rcases hra : runAttempts env url dest (List.range (mr + 1)) none st with ⟨b, le2, st1⟩
    cases b with
    | true =>
      unfold download_file
      rw [hra]
      exact Or.inl rfl
    | false =>
      unfold download_file
      rw [hra]
      dsimp only
      by_cases hcond : (lge && le2.isSome) = true
      · rw [if_pos hcond, hw]
        simp
      · rw [if_neg hcond]
        exact Or.inr rfl
  · intro ds folder s2 fd2 oc2 st2 h
    have hok := (runTasks_spec env folder ds.length ds 1 0 [] [] st).2.2.2.2
    exact (hok s2 fd2 oc2 (by rw [h])).1

theorem claim_C9_witness :
    (download_file envAlwaysFail "u" ["d", "a.zip"] true 2 st0).1
      ≠ PyResult.ok false ∧
    (envAlwaysFail.logWriteFails = false →
      (download_file envAlwaysFail "u" ["d", "a.zip"] true 2 st0).1 = PyResult.ok true ∨
      (download_file envAlwaysFail "u" ["d", "a.zip"] true 2 st0).1
        = PyResult.sysExit 1) ∧
    (∀ (ds : List (String × String)) (folder : String) (s2 : Nat)
      (fd2 : List (String × String)) (oc2 : List TransferOutcome) (st2 : St),
      runTasks envAlwaysFail folder ds.length ds 1 0 [] [] st0
        = (PyResult.ok (s2, fd2, oc2), st2) → fd2 = []) :=
  claim_C9 envAlwaysFail "u" ["d", "a.zip"] true 2 st0

/-- C3: Skip rule and idempotence.  For the task `(u, f)` at position
`pre.length` of the batch (no earlier task sharing its filename or staging
into it, no other task sharing its url): (a) if its destination exists
before the run, the run issues no GET for `u` and, when the loop
completes, reports outcome `Skipped` at that position; (b) if the task
succeeded in a completed run, its destination exists afterwards, so
running the same batch again from the resulting state issues no GET for
`u` and reports `Skipped` for it. -/
theorem claim_C3 (env : Env) (folder : String)
    (pre post : List (String × String)) (u f : String) (st : St)
    (hpre : ∀ x ∈ pre, f ≠ x.2 ∧ f ≠ x.2 ++ ".tmp" ∧ x.1 ≠ u)
    (hpost : ∀ x ∈ post, x.1 ≠ u ∧ f ≠ x.2 ++ ".tmp") :
    (st.fs.pathExists (destPath folder f) = true →
      (download_all_files env (pre ++ (u, f) :: post) folder st).2.requests.count u
        = st.requests.count u ∧
      (∀ s2 fd2 oc2 st2,
        runTasks env folder (pre ++ (u, f) :: post).length (pre ++ (u, f) :: post)
          1 0 [] [] st = (PyResult.ok (s2, fd2, oc2), st2) →
        oc2[pre.length]? = some TransferOutcome.skipped)) ∧
    (∀ s2 fd2 oc2 st2,
      runTasks env folder (pre ++ (u, f) :: post).length (pre ++ (u, f) :: post)
        1 0 [] [] st = (PyResult.ok (s2, fd2, oc2), st2) →
      oc2[pre.length]? = some TransferOutcome.succeeded →
      st2.fs.pathExists (destPath folder f) = true ∧
      (download_all_files env (pre ++ (u, f) :: post) folder st2).2.requests.count u
        = st2.requests.count u ∧
      (∀ s3 fd3 oc3 st3,
        runTasks env folder (pre ++ (u, f) :: post).length (pre ++ (u, f) :: post)
          1 0 [] [] st2 = (PyResult.ok (s3, fd3, oc3), st3) →
        oc3[pre.length]? = some TransferOutcome.skipped)) := by
  have hposturl : ∀ x ∈ post, x.1 ≠ u := fun x hx => (hpost x hx).1
  have haux : ∀ (stA : St), stA.fs.pathExists (destPath folder f) = true →
      (download_all_files env (pre ++ (u, f) :: post) folder stA).2.requests.count u
        = stA.requests.count u ∧
      (∀ s2 fd2 oc2 st2,
        runTasks env folder (pre ++ (u, f) :: post).length (pre ++ (u, f) :: post)
          1 0 [] [] stA = (PyResult.ok (s2, fd2, oc2), st2) →
        oc2[pre.length]? = some TransferOutcome.skipped) := by
    intro stA hex
    obtain ⟨hcnt, hpos⟩ := skip_task_aux env folder (pre ++ (u, f) :: post).length
      pre u f post 1 0 [] [] stA hpre hposturl hex
    constructor
    · rw [(download_all_files_frame env (pre ++ (u, f) :: post) folder stA).2.2.2.1]
      exact hcnt
    · intro s2 fd2 oc2 st2 h
      have := hpos s2 fd2 oc2 st2 h
      simpa using this
  refine ⟨haux st, ?_⟩
  intro s2 fd2 oc2 st2 h hsucc
  have hexists : st2.fs.pathExists (destPath folder f) = true := by
    have hsplit := runTasks_append env folder (pre ++ (u, f) :: post).length
      pre ((u, f) :: post) 1 0 [] [] st
    rw [hsplit] at h
    rcases hP : runTasks env folder (pre ++ (u, f) :: post).length pre 1 0 [] [] st
      with ⟨rP, stP⟩
    rw [hP] at h
    cases rP with
    | sysExit c => exact absurd h (by simp)
    | exc m => exact absurd h (by simp)
    | ok vP =>
      obtain ⟨sP, fdP, ocP⟩ := vP
      dsimp only at h
      obtain ⟨_, tP, htP, htPl, _⟩ :=
        (runTasks_spec env folder (pre ++ (u, f) :: post).length pre 1 0 [] [] st).2.2.2.2
          sP fdP ocP (by rw [hP])
      simp only [List.nil_append] at htP
      subst htP
      by_cases hexP : stP.fs.pathExists (destPath folder f) = true
      · have hred : runTasks env folder (pre ++ (u, f) :: post).length ((u, f) :: post)
            (1 + pre.length) sP fdP ocP stP
            = runTasks env folder (pre ++ (u, f) :: post).length post
                (1 + pre.length + 1) (sP + 1) fdP (ocP ++ [TransferOutcome.skipped])
                { stP with console := stP.console ++
                    [skipLine (1 + pre.length) (pre ++ (u, f) :: post).length f] } := by
          simp only [runTasks, destPath] at hexP ⊢
          rw [hexP]
          simp
        rw [hred] at h
        obtain ⟨_, tQ, htQ, _, _⟩ :=
          (runTasks_spec env folder (pre ++ (u, f) :: post).length post
            (1 + pre.length + 1) (sP + 1) fdP (ocP ++ [TransferOutcome.skipped]) _).2.2.2.2
            s2 fd2 oc2 (by rw [h])
        exfalso
        rw [htQ, List.append_assoc] at hsucc
        rw [List.getElem?_append_right (le_of_eq htPl), htPl, Nat.sub_self] at hsucc
        simp at hsucc
      · have hexPf : stP.fs.pathExists (destPath folder f) = false :=
          Bool.eq_false_iff.mpr hexP
        rcases hdf : download_file env u (destPath folder f) true 2
          { stP with console := stP.console ++
              [startLine (1 + pre.length) (pre ++ (u, f) :: post).length f] }
          with ⟨rD, stD⟩
        have hspec := download_file_spec env u (destPath folder f) true 2
          { stP with console := stP.console ++
              [startLine (1 + pre.length) (pre ++ (u, f) :: post).length f] }
        rw [hdf] at hspec
        have hred : runTasks env folder (pre ++ (u, f) :: post).length ((u, f) :: post)
            (1 + pre.length) sP fdP ocP stP
            = match (rD, stD) with
              | (PyResult.ok result, st2) =>
                if result then
                  runTasks env folder (pre ++ (u, f) :: post).length post
                    (1 + pre.length + 1) (sP + 1) fdP
                    (ocP ++ [TransferOutcome.succeeded]) st2
                else
                  runTasks env folder (pre ++ (u, f) :: post).length post
                    (1 + pre.length + 1) sP (fdP ++ [(u, f)])
                    (ocP ++ [TransferOutcome.failed]) st2
              | (PyResult.sysExit c, st2) => (PyResult.sysExit c, st2)
              | (PyResult.exc m, st2) => (PyResult.exc m, st2) := by
          simp only [destPath] at hdf
          simp only [runTasks, destPath] at hexPf ⊢
          rw [hexPf]
          simp only [Bool.false_eq_true, if_false]
          rw [hdf]
        rw [hred] at h
        cases rD with
        | sysExit c => exact absurd h (by simp)
        | exc m => exact absurd h (by simp)
        | ok bD =>
          cases bD with
          | false => exact absurd rfl hspec.2.2.2.2.1
          | true =>
            dsimp only at h
            rw [if_pos rfl] at h
            obtain ⟨a, cl, body, m, _, hdest, _, _, _, _⟩ := hspec.2.2.2.2.2.1 rfl
            have hexD : stD.fs.pathExists (destPath folder f) = true := by
              unfold FS.pathExists
              rw [hdest]
              rfl
            have hmono := runTasks_mono env folder (pre ++ (u, f) :: post).length post
              (1 + pre.length + 1) (sP + 1) fdP (ocP ++ [TransferOutcome.succeeded]) stD
              (destPath folder f)
              (by
                intro x hx
                rw [tempPath_destPath]
                simp only [destPath, ne_eq, List.cons.injEq]
                intro hcon
                exact (hpost x hx).2 hcon.2.1)
              hexD
            rw [h] at hmono
            exact hmono
  obtain ⟨hcnt2, hpos2⟩ := haux st2 hexists
  exact ⟨hexists, hcnt2, hpos2⟩

theorem claim_C3_witness :
    (stPre.fs.pathExists (destPath "d" "a.zip") = true →
      (download_all_files envAlwaysOk ([] ++ ("u", "a.zip") :: []) "d" stPre).2.requests.count "u"
        = stPre.requests.count "u" ∧
      (∀ s2 fd2 oc2 st2,
        runTasks envAlwaysOk "d" ([] ++ ("u", "a.zip") :: []).length
          ([] ++ ("u", "a.zip") :: []) 1 0 [] [] stPre = (PyResult.ok (s2, fd2, oc2), st2) →
        oc2[List.length ([] : List (String × String))]? = some TransferOutcome.skipped)) ∧
    (∀ s2 fd2 oc2 st2,
      runTasks envAlwaysOk "d" ([] ++ ("u", "a.zip") :: []).length
        ([] ++ ("u", "a.zip") :: []) 1 0 [] [] stPre = (PyResult.ok (s2, fd2, oc2), st2) →
      oc2[List.length ([] : List (String × String))]? = some TransferOutcome.succeeded →
      st2.fs.pathExists (destPath "d" "a.zip") = true ∧
      (download_all_files envAlwaysOk ([] ++ ("u", "a.zip") :: []) "d" st2).2.requests.count "u"
        = st2.requests.count "u" ∧
      (∀ s3 fd3 oc3 st3,
        runTasks envAlwaysOk "d" ([] ++ ("u", "a.zip") :: []).length
          ([] ++ ("u", "a.zip") :: []) 1 0 [] [] st2 = (PyResult.ok (s3, fd3, oc3), st3) →
        oc3[List.length ([] : List (String × String))]? = some TransferOutcome.skipped)) :=
  claim_C3 envAlwaysOk "d" [] [] "u" "a.zip" stPre (by simp) (by simp)

/-- C4: Ordered-mode halt.  For tasks `[A, B, C]` where `A`'s transfer
succeeds at once, `B` fails permanently, all destinations are initially
absent and the three tasks have distinct, non-colliding filenames and urls:
the batch raises `SystemExit(1)` on `B` (task `C` is never attempted — no
GET for its url is ever issued), the process exit code is 1, the
destination for `A` exists, and the destinations for `B` and `C` do not. -/
theorem claim_C4 (env : Env) (folder : String) (uA fA uB fB uC fC : String)
    (st : St) (clA : Option Nat) (bodyA : List Byte)
    (hA : env.transport uA 0 = AttemptResult.ok clA bodyA)
    (hB : ∀ a, (env.transport uB a).isOk = false)
    (hw : env.logWriteFails = false)
    (hexA : st.fs.lookup (destPath folder fA) = none)
    (hexB : st.fs.lookup (destPath folder fB) = none)
    (hexC : st.fs.lookup (destPath folder fC) = none)
    (hBA : fB ≠ fA) (hBAt : fB ≠ fA ++ ".tmp") (hABt : fA ≠ fB ++ ".tmp")
    (hCA : fC ≠ fA) (hCAt : fC ≠ fA ++ ".tmp") (hCBt : fC ≠ fB ++ ".tmp")
    (hCB : fC ≠ fB)
    (huCA : uC ≠ uA) (huCB : uC ≠ uB) (huC0 : uC ∉ st.requests) :
    (download_all_files env [(uA, fA), (uB, fB), (uC, fC)] folder st).1
      = PyResult.sysExit 1 ∧
    processExitCode env [(uA, fA), (uB, fB), (uC, fC)] folder st = 1 ∧
    (download_all_files env [(uA, fA), (uB, fB), (uC, fC)] folder st).2.fs.pathExists
      (destPath folder fA) = true ∧
    (download_all_files env [(uA, fA), (uB, fB), (uC, fC)] folder st).2.fs.pathExists
      (destPath folder fB) = false ∧
    (download_all_files env [(uA, fA), (uB, fB), (uC, fC)] folder st).2.fs.pathExists
      (destPath folder fC) = false ∧
    uC ∉ (download_all_files env [(uA, fA), (uB, fB), (uC, fC)] folder st).2.requests := by
  have hdiff : ∀ g h : String, g ≠ h → destPath folder g ≠ destPath folder h := by
    intro g h hne hcon
    simp only [destPath, List.cons.injEq] at hcon
    exact hne hcon.2.1
  have hdifft : ∀ g h : String, g ≠ h ++ ".tmp" →
      destPath folder g ≠ tempPath (destPath folder h) := by
    intro g h hne
    rw [tempPath_destPath]
    exact hdiff g (h ++ ".tmp") hne
  set tot := ([(uA, fA), (uB, fB), (uC, fC)] : List (String × String)).length with htot
  -- step A: first task downloads successfully
  have hexApe : st.fs.pathExists (destPath folder fA) = false := by
    unfold FS.pathExists
    rw [hexA]
    rfl
  have hstep1 := runTasks_download_step env folder tot uA fA 1 0 [] [] st hexApe
  rcases hdfA : download_file env uA (destPath folder fA) true 2
    { st with console := st.console ++ [startLine 1 tot fA] } with ⟨rA, stA2⟩
  have hfo := download_file_first_ok env uA (destPath folder fA) true 2
    { st with console := st.console ++ [startLine 1 tot fA] } clA bodyA hA
  rw [hdfA] at hfo
  injection hfo with hrA hstA2
  subst hrA
  rw [hdfA] at hstep1
  dsimp only at hstep1
  -- facts about the state after task A
  obtain ⟨hcd, hct, hcf⟩ := commitFS_spec st.fs (destPath folder fA) ⟨bodyA, st.clock⟩
  have hAs : stA2.fs.lookup (destPath folder fA) = some ⟨bodyA, st.clock⟩ := by
    rw [hstA2]
    exact hcd
  have hBs : stA2.fs.lookup (destPath folder fB) = none := by
    rw [hstA2]
    dsimp only
    rw [hcf _ (hdiff fB fA hBA) (hdifft fB fA hBAt)]
    exact hexB
  have hCs : stA2.fs.lookup (destPath folder fC) = none := by
    rw [hstA2]
    dsimp only
    rw [hcf _ (hdiff fC fA hCA) (hdifft fC fA hCAt)]
    exact hexC
  have hreqA : stA2.requests = st.requests ++ [uA] := by
    rw [hstA2]
  -- step B: second task exhausts its retries and exits
  have hexB2 : stA2.fs.pathExists (destPath folder fB) = false := by
    unfold FS.pathExists
    rw [hBs]
    rfl
  have hstep2 := runTasks_download_step env folder tot uB fB 2 1 []
    [TransferOutcome.succeeded] stA2 hexB2
  rcases hdfB : download_file env uB (destPath folder fB) true 2
    { stA2 with console := stA2.console ++ [startLine 2 tot fB] } with ⟨rB, stB2⟩
  have hexh := download_file_exhaust env uB (destPath folder fB) true 2
    { stA2 with console := stA2.console ++ [startLine 2 tot fB] } hB
  rw [hdfB] at hexh
  obtain ⟨hreqB, _, _, hDone, _⟩ := hexh
  obtain ⟨hrB, _⟩ := hDone rfl hw
  simp only at hrB hreqB
  have hspecB := download_file_spec env uB (destPath folder fB) true 2
    { stA2 with console := stA2.console ++ [startLine 2 tot fB] }
  rw [hdfB] at hspecB
  obtain ⟨_, _, hfrB, _, _, _, hfailB⟩ := hspecB
  rw [hrB] at hdfB
  rw [hdfB] at hstep2
  dsimp only at hstep2
  -- assemble the whole run
  have hsplit1 := runTasks_append env folder tot [(uA, fA)] [(uB, fB), (uC, fC)]
    1 0 [] [] st
  simp only [List.cons_append, List.nil_append] at hsplit1
  rw [hstep1] at hsplit1
  dsimp only at hsplit1
  have hsplit2 := runTasks_append env folder tot [(uB, fB)] [(uC, fC)]
    2 1 [] [TransferOutcome.succeeded] stA2
  simp only [List.cons_append, List.nil_append] at hsplit2
  rw [hstep2] at hsplit2
  dsimp only at hsplit2
  have hrun : runTasks env folder tot [(uA, fA), (uB, fB), (uC, fC)] 1 0 [] [] st
      = (PyResult.sysExit 1, stB2) := by
    rw [hsplit1]
    exact hsplit2
  have hdaf : download_all_files env [(uA, fA), (uB, fB), (uC, fC)] folder st
      = (PyResult.sysExit 1, stB2) := by
    unfold download_all_files
    rw [← htot, hrun]
  -- final facts about stB2
  have hfB2 : stB2.fs.lookup (destPath folder fB) = none := by
    have h := (hfailB (by rw [hrB]; exact fun hcon => by simp at hcon)).1
    rw [h]
    exact hBs
  have hfA2 : stB2.fs.lookup (destPath folder fA) = some ⟨bodyA, st.clock⟩ := by
    rw [hfrB _ (hdiff fA fB (fun hcon => hBA hcon.symm)) (hdifft fA fB hABt)]
    exact hAs
  have hfC2 : stB2.fs.lookup (destPath folder fC) = none := by
    rw [hfrB _ (hdiff fC fB hCB) (hdifft fC fB hCBt)]
    exact hCs
  refine ⟨by rw [hdaf], ?_, ?_, ?_, ?_, ?_⟩
  · unfold processExitCode
    rw [hdaf]
  · rw [hdaf]
    unfold FS.pathExists
    rw [hfA2]
    rfl
  · rw [hdaf]
    unfold FS.pathExists
    rw [hfB2]
    rfl
  · rw [hdaf]
    unfold FS.pathExists
    rw [hfC2]
    rfl
  · rw [hdaf]
    have : stB2.requests = (st.requests ++ [uA]) ++ List.replicate (2 + 1) uB := by
      rw [hreqB, hreqA]
    rw [this]
    simp only [List.mem_append, List.mem_singleton, List.mem_replicate]
    push_neg
    exact ⟨⟨huC0, huCA⟩, fun _ => huCB⟩

theorem claim_C4_witness :
    (download_all_files envMixed [("uA", "a.zip"), ("uB", "b.zip"), ("uC", "c.zip")]
      "d" st0).1 = PyResult.sysExit 1 ∧
    processExitCode envMixed [("uA", "a.zip"), ("uB", "b.zip"), ("uC", "c.zip")]
      "d" st0 = 1 ∧
    (download_all_files envMixed [("uA", "a.zip"), ("uB", "b.zip"), ("uC", "c.zip")]
      "d" st0).2.fs.pathExists (destPath "d" "a.zip") = true ∧
    (download_all_files envMixed [("uA", "a.zip"), ("uB", "b.zip"), ("uC", "c.zip")]
      "d" st0).2.fs.pathExists (destPath "d" "b.zip") = false ∧
    (download_all_files envMixed [("uA", "a.zip"), ("uB", "b.zip"), ("uC", "c.zip")]
      "d" st0).2.fs.pathExists (destPath "d" "c.zip") = false ∧
    "uC" ∉ (download_all_files envMixed
      [("uA", "a.zip"), ("uB", "b.zip"), ("uC", "c.zip")] "d" st0).2.requests :=
  claim_C4 envMixed "d" "uA" "a.zip" "uB" "b.zip" "uC" "c.zip" st0 (some 2) [7, 7]
    rfl (fun _ => rfl) rfl rfl rfl rfl (by decide) (by decide) (by decide)
    (by decide) (by decide) (by decide) (by decide) (by decide) (by decide)
    (by simp [st0])

/-- C5: Modification-order invariant.  In a sequential batch run that
completes, for any two tasks `i` (at position `pre.length`) and `j` (at
position `pre.length + 1 + mid.length`), with all destinations fresh and
filenames non-colliding, both destination files exist afterwards and the
modification time of task `i`'s file is strictly smaller than that of task
`j`'s file: each commit happens strictly after every earlier task's commit
and before any later task starts. -/
theorem claim_C5 (env : Env) (folder : String)
    (pre mid post : List (String × String)) (ui fi uj fj : String) (st : St)
    (v : Nat × List (String × String) × List TransferOutcome) (st2 : St)
    (hfi : ∀ x ∈ pre ++ (mid ++ (uj, fj) :: post), fi ≠ x.2 ∧ fi ≠ x.2 ++ ".tmp")
    (hfj : ∀ x ∈ pre ++ ((ui, fi) :: (mid ++ post)), fj ≠ x.2 ∧ fj ≠ x.2 ++ ".tmp")
    (hfri : st.fs.lookup (destPath folder fi) = none)
    (hfrj : st.fs.lookup (destPath folder fj) = none)
    (hrun : runTasks env folder (pre ++ (ui, fi) :: (mid ++ (uj, fj) :: post)).length
        (pre ++ (ui, fi) :: (mid ++ (uj, fj) :: post)) 1 0 [] [] st
      = (PyResult.ok v, st2)) :
    ∃ di dj,
      (download_all_files env (pre ++ (ui, fi) :: (mid ++ (uj, fj) :: post))
        folder st).2.fs.lookup (destPath folder fi) = some di ∧
      (download_all_files env (pre ++ (ui, fi) :: (mid ++ (uj, fj) :: post))
        folder st).2.fs.lookup (destPath folder fj) = some dj ∧
      di.mtime < dj.mtime := by
  have hdiff : ∀ g h : String, g ≠ h → destPath folder g ≠ destPath folder h := by
    intro g h hne hcon
    simp only [destPath, List.cons.injEq] at hcon
    exact hne hcon.2.1
  have hdifft : ∀ g h : String, g ≠ h ++ ".tmp" →
      destPath folder g ≠ tempPath (destPath folder h) := by
    intro g h hne
    rw [tempPath_destPath]
    exact hdiff g (h ++ ".tmp") hne
  have hfi_pre : ∀ x ∈ pre, fi ≠ x.2 ∧ fi ≠ x.2 ++ ".tmp" :=
    fun x hx => hfi x (List.mem_append_left _ hx)
  have hfi_mid : ∀ x ∈ mid, fi ≠ x.2 ∧ fi ≠ x.2 ++ ".tmp" :=
    fun x hx => hfi x (List.mem_append_right _ (List.mem_append_left _ hx))
  have hfi_j : fi ≠ fj ∧ fi ≠ fj ++ ".tmp" :=
    hfi (uj, fj) (List.mem_append_right _
      (List.mem_append_right _ (List.mem_cons_self _ _)))
  have hfi_post : ∀ x ∈ post, fi ≠ x.2 ∧ fi ≠ x.2 ++ ".tmp" :=
    fun x hx => hfi x (List.mem_append_right _
      (List.mem_append_right _ (List.mem_cons_of_mem _ hx)))
  have hfj_pre : ∀ x ∈ pre, fj ≠ x.2 ∧ fj ≠ x.2 ++ ".tmp" :=
    fun x hx => hfj x (List.mem_append_left _ hx)
  have hfj_i : fj ≠ fi ∧ fj ≠ fi ++ ".tmp" :=
    hfj (ui, fi) (List.mem_append_right _ (List.mem_cons_self _ _))
  have hfj_mid : ∀ x ∈ mid, fj ≠ x.2 ∧ fj ≠ x.2 ++ ".tmp" :=
    fun x hx => hfj x (List.mem_append_right _
      (List.mem_cons_of_mem _ (List.mem_append_left _ hx)))
  have hfj_post : ∀ x ∈ post, fj ≠ x.2 ∧ fj ≠ x.2 ++ ".tmp" :=
    fun x hx => hfj x (List.mem_append_right _
      (List.mem_cons_of_mem _ (List.mem_append_right _ hx)))
  set tot := (pre ++ (ui, fi) :: (mid ++ (uj, fj) :: post)).length with htot
  have hfull := hrun
  -- stage 1: the tasks before i
  rw [runTasks_append env folder tot pre ((ui, fi) :: (mid ++ (uj, fj) :: post))
    1 0 [] [] st] at hrun
  rcases hP : runTasks env folder tot pre 1 0 [] [] st with ⟨rP, stP⟩
  rw [hP] at hrun
  cases rP with
  | sysExit c => exact absurd hrun (by simp)
  | exc m => exact absurd hrun (by simp)
  | ok vP =>
  obtain ⟨sP, fdP, ocP⟩ := vP
  dsimp only at hrun
  have hspecP := runTasks_spec env folder tot pre 1 0 [] [] st
  rw [hP] at hspecP
  obtain ⟨_, _, hframeP, _, _⟩ := hspecP
  simp only at hframeP
  have hiP : stP.fs.lookup (destPath folder fi) = none := by
    rw [hframeP _ (fun x hx =>
      ⟨hdiff fi x.2 (hfi_pre x hx).1, hdifft fi x.2 (hfi_pre x hx).2⟩)]
    exact hfri
  have hjP : stP.fs.lookup (destPath folder fj) = none := by
    rw [hframeP _ (fun x hx =>
      ⟨hdiff fj x.2 (hfj_pre x hx).1, hdifft fj x.2 (hfj_pre x hx).2⟩)]
    exact hfrj
  -- task i downloads
  have hexPi : stP.fs.pathExists (destPath folder fi) = false := by
    unfold FS.pathExists
    rw [hiP]
    rfl
  rw [runTasks_cons_download env folder tot ui fi (mid ++ (uj, fj) :: post)
    (1 + pre.length) sP fdP ocP stP hexPi] at hrun
  rcases hdfI : download_file env ui (destPath folder fi) true 2
    { stP with console := stP.console ++ [startLine (1 + pre.length) tot fi] }
    with ⟨rI, stI⟩
  rw [hdfI] at hrun
  have hspecI := download_file_spec env ui (destPath folder fi) true 2
    { stP with console := stP.console ++ [startLine (1 + pre.length) tot fi] }
  rw [hdfI] at hspecI
  cases rI with
  | sysExit c => exact absurd hrun (by simp)
  | exc m => exact absurd hrun (by simp)
  | ok bI =>
  cases bI with
  | false => exact absurd rfl hspecI.2.2.2.2.1
  | true =>
  dsimp only at hrun
  obtain ⟨aI, clI, bodyI, mi, _, hdestI, _, hmihigh, _, _⟩ :=
    hspecI.2.2.2.2.2.1 rfl
  have hjI : stI.fs.lookup (destPath folder fj) = none := by
    rw [hspecI.2.2.1 _ (hdiff fj fi hfj_i.1) (hdifft fj fi hfj_i.2)]
    exact hjP
  -- stage 2: the tasks between i and j
  rw [runTasks_append env folder tot mid ((uj, fj) :: post)
    (1 + pre.length + 1) (sP + 1) fdP (ocP ++ [TransferOutcome.succeeded]) stI] at hrun
  rcases hM : runTasks env folder tot mid (1 + pre.length + 1) (sP + 1) fdP
    (ocP ++ [TransferOutcome.succeeded]) stI with ⟨rM, stM⟩
  rw [hM] at hrun
  cases rM with
  | sysExit c => exact absurd hrun (by simp)
  | exc m => exact absurd hrun (by simp)
  | ok vM =>
  obtain ⟨sM, fdM, ocM⟩ := vM
  dsimp only at hrun
  have hspecM := runTasks_spec env folder tot mid (1 + pre.length + 1) (sP + 1) fdP
    (ocP ++ [TransferOutcome.succeeded]) stI
  rw [hM] at hspecM
  obtain ⟨_, hclkM, hframeM, _, _⟩ := hspecM
  simp only at hclkM hframeM
  have hiM : stM.fs.lookup (destPath folder fi) = some ⟨bodyI, mi⟩ := by
    rw [hframeM _ (fun x hx =>
      ⟨hdiff fi x.2 (hfi_mid x hx).1, hdifft fi x.2 (hfi_mid x hx).2⟩)]
    exact hdestI
  have hjM : stM.fs.lookup (destPath folder fj) = none := by
    rw [hframeM _ (fun x hx =>
      ⟨hdiff fj x.2 (hfj_mid x hx).1, hdifft fj x.2 (hfj_mid x hx).2⟩)]
    exact hjI
  -- task j downloads
  have hexMj : stM.fs.pathExists (destPath folder fj) = false := by
    unfold FS.pathExists
    rw [hjM]
    rfl
  rw [runTasks_cons_download env folder tot uj fj post
    (1 + pre.length + 1 + mid.length) sM fdM ocM stM hexMj] at hrun
  rcases hdfJ : download_file env uj (destPath folder fj) true 2
    { stM with console := stM.console ++
        [startLine (1 + pre.length + 1 + mid.length) tot fj] } with ⟨rJ, stJ⟩
  rw [hdfJ] at hrun
  have hspecJ := download_file_spec env uj (destPath folder fj) true 2
    { stM with console := stM.console ++
        [startLine (1 + pre.length + 1 + mid.length) tot fj] }
  rw [hdfJ] at hspecJ
  cases rJ with
  | sysExit c => exact absurd hrun (by simp)
  | exc m => exact absurd hrun (by simp)
  | ok bJ =>
  cases bJ with
  | false => exact absurd rfl hspecJ.2.2.2.2.1
  | true =>
  dsimp only at hrun
  obtain ⟨aJ, clJ, bodyJ, mj, _, hdestJ, hmjlow, _, _, _⟩ :=
    hspecJ.2.2.2.2.2.1 rfl
  have hiJ : stJ.fs.lookup (destPath folder fi) = some ⟨bodyI, mi⟩ := by
    rw [hspecJ.2.2.1 _ (hdiff fi fj hfi_j.1) (hdifft fi fj hfi_j.2)]
    exact hiM
  -- stage 3: the tasks after j
  have hspecQ := runTasks_spec env folder tot post
    (1 + pre.length + 1 + mid.length + 1) (sM + 1) fdM
    (ocM ++ [TransferOutcome.succeeded]) stJ
  rw [hrun] at hspecQ
  obtain ⟨_, _, hframeQ, _, _⟩ := hspecQ
  simp only at hframeQ
  have hiF : st2.fs.lookup (destPath folder fi) = some ⟨bodyI, mi⟩ := by
    rw [hframeQ _ (fun x hx =>
      ⟨hdiff fi x.2 (hfi_post x hx).1, hdifft fi x.2 (hfi_post x hx).2⟩)]
    exact hiJ
  have hjF : st2.fs.lookup (destPath folder fj) = some ⟨bodyJ, mj⟩ := by
    rw [hframeQ _ (fun x hx =>
      ⟨hdiff fj x.2 (hfj_post x hx).1, hdifft fj x.2 (hfj_post x hx).2⟩)]
    exact hdestJ
  have hord : mi < mj :=
    Nat.lt_of_lt_of_le hmihigh (Nat.le_trans hclkM (by simpa using hmjlow))
  have hfr := (download_all_files_frame env
    (pre ++ (ui, fi) :: (mid ++ (uj, fj) :: post)) folder st).1
  rw [← htot, hfull] at hfr
  exact ⟨⟨bodyI, mi⟩, ⟨bodyJ, mj⟩, by rw [hfr]; exact hiF,
    by rw [hfr]; exact hjF, hord⟩

theorem claim_C5_witness :
    ∃ di dj,
      (download_all_files envAlwaysOk
        ([] ++ ("u1", "a.zip") :: ([] ++ ("u2", "b.zip") :: []))
        "d" st0).2.fs.lookup (destPath "d" "a.zip") = some di ∧
      (download_all_files envAlwaysOk
        ([] ++ ("u1", "a.zip") :: ([] ++ ("u2", "b.zip") :: []))
        "d" st0).2.fs.lookup (destPath "d" "b.zip") = some dj ∧
      di.mtime < dj.mtime :=
  claim_C5 envAlwaysOk "d" [] [] [] "u1" "a.zip" "u2" "b.zip" st0
    (2, [], [TransferOutcome.succeeded, TransferOutcome.succeeded])
    ((runTasks envAlwaysOk "d"
      ([] ++ ("u1", "a.zip") :: ([] ++ ("u2", "b.zip") :: [])).length
      ([] ++ ("u1", "a.zip") :: ([] ++ ("u2", "b.zip") :: [])) 1 0 [] [] st0).2)
    (by decide) (by decide) rfl rfl (by decide)

/-- C7 fails on the code: the semaphore-based bounded-parallel variant is
shadowed by the second (sequential) definition of `download_all_files`, so
no best-effort mode is callable.  Concretely, with two tasks whose first
exhausts its retries, the effective orchestrator raises `SystemExit(1)`
instead of recording a `Failed` outcome and continuing: the second task's
url is never requested. -/
theorem claim_C7_cex :
    (download_all_files envAlwaysFail [("u1", "a.zip"), ("u2", "b.zip")] "d" st0).1
      = PyResult.sysExit 1 ∧
    "u2" ∉ (download_all_files envAlwaysFail
      [("u1", "a.zip"), ("u2", "b.zip")] "d" st0).2.requests := by
  decide

/-- C7 (amended): the effective orchestrator — the second definition of
`download_all_files`, which shadows the earlier semaphore variant — offers
no bounded-parallel best-effort mode: it is strictly sequential, and a task
that exhausts its retries terminates the batch via `SystemExit(1)` rather
than being recorded as `Failed` with the batch continuing; tasks after it
are never attempted (no GET for their urls is ever issued). -/
theorem claim_C7 (env : Env) (folder u f : String)
    (rest : List (String × String)) (st : St)
    (hf : ∀ a, (env.transport u a).isOk = false)
    (hw : env.logWriteFails = false)
    (hex : st.fs.lookup (destPath folder f) = none) :
    (download_all_files env ((u, f) :: rest) folder st).1 = PyResult.sysExit 1 ∧
    ∀ x ∈ rest, x.1 ≠ u → x.1 ∉ st.requests →
      x.1 ∉ (download_all_files env ((u, f) :: rest) folder st).2.requests := by
  have hexpe : st.fs.pathExists (destPath folder f) = false := by
    unfold FS.pathExists
    rw [hex]
    rfl
  have hred := runTasks_cons_download env folder ((u, f) :: rest).length u f rest
    1 0 [] [] st hexpe
  rcases hdf : download_file env u (destPath folder f) true 2
    { st with console := st.console ++ [startLine 1 ((u, f) :: rest).length f] }
    with ⟨r, st2⟩
  have hexh := download_file_exhaust env u (destPath folder f) true 2
    { st with console := st.console ++ [startLine 1 ((u, f) :: rest).length f] } hf
  rw [hdf] at hexh
  obtain ⟨hreq, _, _, hDone, _⟩ := hexh
  obtain ⟨hr, _⟩ := hDone rfl hw
  simp only at hr hreq
  rw [hr] at hdf
  rw [hdf] at hred
  dsimp only at hred
  have hdaf : download_all_files env ((u, f) :: rest) folder st
      = (PyResult.sysExit 1, st2) := by
    unfold download_all_files
    rw [hred]
  refine ⟨by rw [hdaf], ?_⟩
  intro x hx hne hnotin
  rw [hdaf]
  dsimp only
  rw [hreq]
  simp only [List.mem_append, List.mem_replicate]
  push_neg
  exact ⟨hnotin, fun _ => hne⟩

theorem claim_C7_witness :
    (download_all_files envAlwaysFail [("u1", "a.zip"), ("u2", "b.zip")] "d" st0).1
      = PyResult.sysExit 1 ∧
    ∀ x ∈ [("u2", "b.zip")], x.1 ≠ "u1" → x.1 ∉ st0.requests →
      x.1 ∉ (download_all_files envAlwaysFail
        [("u1", "a.zip"), ("u2", "b.zip")] "d" st0).2.requests :=
  claim_C7 envAlwaysFail "d" "u1" "a.zip" [("u2", "b.zip")] st0
    (fun _ => rfl) rfl rfl

/-- C8 fails on the code (the specification is the intent, the code the
slip): when a task exhausts its retries and the append to the failure log
itself raises, `log_failed_download` has no handler, so the exception
propagates out of `download_file` before the per-task failure report and
`sys.exit(1)` run; `download_all_files`' generic `except Exception` prints
a generic message and returns `False`, which `main` ignores — the process
exits 0.  Evaluated here at the failing input: one always-failing task with
an unwritable log file. -/
theorem claim_C8 :
    (download_all_files envBadLog [("u1", "a.zip")] "d" st0).1 = PyResult.ok false ∧
    processExitCode envBadLog [("u1", "a.zip")] "d" st0 = 0 ∧
    (download_all_files envBadLog [("u1", "a.zip")] "d" st0).2.log = [] ∧
    failLine (destPath "d" "a.zip") 2 "connection refused"
      ∉ (download_all_files envBadLog [("u1", "a.zip")] "d" st0).2.console ∧
    "An error occurred during downloads: OSError: failure log is not writable"
      ∈ (download_all_files envBadLog [("u1", "a.zip")] "d" st0).2.console := by
  decide

end DownloadBundles

namespace ExtractBundle

/-- C10: `extract_wavs` on a path that exists on disk but fails the ZIP
validity check returns the bare boolean `False` (line 127), while every
other return path of the string-path branch yields a `(bool, str)` pair;
the caller `main`, which unpacks the result into two values, therefore
raises a `TypeError` on the first corrupted ZIP file instead of recording
it as a failed file. -/
theorem claim_C10 (w : ZipWorld) (p : String) (rest : List String)
    (n : Nat) (fd : List (String × String))
    (hex : w.pathExists p = true) (hbad : w.zipValid p = false) :
    extract_wavs w p = PyValue.bool false ∧
    (∀ q, w.pathExists q = false → ∃ b s, extract_wavs w q = PyValue.pair b s) ∧
    (∀ q, w.pathExists q = true → w.zipValid q = true →
      ∃ b s, extract_wavs w q = PyValue.pair b s) ∧
    unpack2 (extract_wavs w p)
      = DownloadBundles.PyResult.exc "TypeError: cannot unpack non-iterable bool object" ∧
    mainLoop w (p :: rest) n fd
      = DownloadBundles.PyResult.exc "TypeError: cannot unpack non-iterable bool object" := by
  have h1 : extract_wavs w p = PyValue.bool false := by
    unfold extract_wavs
    rw [hex, hbad]
    simp
  refine ⟨h1, ?_, ?_, by rw [h1]; rfl, ?_⟩
  · intro q hq
    refine ⟨false, "File not found: " ++ q, ?_⟩
    unfold extract_wavs
    rw [hq]
    simp
  · intro q hq1 hq2
    refine ⟨(w.processResult q).1, (w.processResult q).2, ?_⟩
    unfold extract_wavs
    rw [hq1, hq2]
    simp
  · unfold mainLoop
    rw [h1]
    rfl

theorem claim_C10_witness :
    extract_wavs zw "bad.zip" = PyValue.bool false ∧
    (∀ q, zw.pathExists q = false → ∃ b s, extract_wavs zw q = PyValue.pair b s) ∧
    (∀ q, zw.pathExists q = true → zw.zipValid q = true →
      ∃ b s, extract_wavs zw q = PyValue.pair b s) ∧
    unpack2 (extract_wavs zw "bad.zip")
      = DownloadBundles.PyResult.exc "TypeError: cannot unpack non-iterable bool object" ∧
    mainLoop zw ["bad.zip", "good.zip"] 0 []
      = DownloadBundles.PyResult.exc "TypeError: cannot unpack non-iterable bool object" :=
  claim_C10 zw "bad.zip" ["good.zip"] 0 [] rfl (by decide)

end ExtractBundle
